import Mathlib

/-! wifi_nano: driver / supplicant lifecycle and control channel

A shallow embedding of `libhardware_legacy/wifi/wifi_nano.c` and
`hardware_legacy/wifi_nano.h`.

* C character buffers are `List Char`; a byte past the modelled extent of a
  buffer reads as NUL, and the C string held by a buffer is the run of
  characters before its first NUL (`cstr`).
* The process globals (`ctrl_conn`, `monitor_conn`, `iface`, `errmsg_buf`,
  the static `driver_status_buf`) are fields of `World`.
* Everything outside the program (status file, liveness entry under /proc,
  property store, control sockets) is scripted: each external call takes its
  answer from the head of a queue in `World`, and appends a `Call` to
  `World.trace`.  An exhausted queue answers with the failure value of the
  call.
-/

namespace WifiNano

/-! ## C strings -/

/-- The terminating byte of a C string. -/
def NUL : Char := Char.ofNat 0

/-- The C string stored in a buffer: the characters before the first NUL. -/
def cstr : List Char → List Char
  | [] => []
  | c :: cs => if c = NUL then [] else c :: cstr cs

/-- Byte `i` of a buffer. -/
def charAt (buf : List Char) (i : Nat) : Char := buf.getD i NUL

/-- The `strlen` of libc. -/
def strlen : List Char → Nat
  | [] => 0
  | c :: cs => if c = NUL then 0 else strlen cs + 1

/-- The `strcmp` of libc; only the sign of the result is specified by C. -/
def strcmp : List Char → List Char → Int
  | [], [] => 0
  | [], b :: _ => if b = NUL then 0 else -1
  | a :: _, [] => if a = NUL then 0 else 1
  | a :: as, b :: bs =>
    if a = b then (if a = NUL then 0 else strcmp as bs)
    else if a.toNat < b.toNat then -1 else 1

/-- The `strncmp` of libc: compares at most `n` characters. -/
def strncmp : List Char → List Char → Nat → Int
  | _, _, 0 => 0
  | [], [], _ + 1 => 0
  | [], b :: _, _ + 1 => if b = NUL then 0 else -1
  | a :: _, [], _ + 1 => if a = NUL then 0 else 1
  | a :: as, b :: bs, n + 1 =>
    if a = b then (if a = NUL then 0 else strncmp as bs n)
    else if a.toNat < b.toNat then -1 else 1

/-- The `strchr` of libc, as the index of the first occurrence of `c` in the
C string, or `none` for a NULL result. -/
def strchr : List Char → Char → Option Nat
  | [], c => if c = NUL then some 0 else none
  | x :: xs, c =>
    if x = c then some 0
    else if x = NUL then none
    else (strchr xs c).map (· + 1)

/-- Overwrite the start of a buffer with `data`. -/
def bufStore (buf data : List Char) : List Char := data ++ buf.drop data.length

/-- Overwrite byte `i` of a buffer (the buffer is extended with NULs when `i`
lies past its modelled extent). -/
def bufSet (buf : List Char) (i : Nat) (c : Char) : List Char :=
  if i < buf.length then buf.set i c
  else buf ++ List.replicate (i - buf.length) NUL ++ [c]

/-- Read `n` bytes of a buffer starting at offset `off`. -/
def bufRead (buf : List Char) (off n : Nat) : List Char :=
  (buf.drop off).take n ++ List.replicate (n - ((buf.drop off).take n).length) NUL

/-- The `strncpy` of libc into the start of `dst`: at most `n` characters of
the C string `src`, padded with NULs up to `n`. -/
def strncpy (dst src : List Char) (n : Nat) : List Char :=
  let s := (cstr src).take n
  bufStore dst (s ++ List.replicate (n - s.length) NUL)

/-- The characters `fgets` takes from a stream with room for `n` characters:
it stops after a newline, at end of file, or when the room is used up. -/
def fgetsTake : Nat → List Char → List Char × List Char
  | 0, s => ([], s)
  | _ + 1, [] => ([], [])
  | n + 1, c :: s =>
    if c = '\n' then ([c], s)
    else
      let r := fgetsTake n s
      (c :: r.1, r.2)

/-- The `fgets` of libc on a buffer of `size` bytes: `none` (NULL, buffer
untouched) at end of file, else the buffer with the line and its terminating
NUL stored at its start; the second component is the rest of the stream. -/
def fgets (buf : List Char) (size : Nat) (stream : List Char) :
    Option (List Char) × List Char :=
  match stream with
  | [] => (none, [])
  | _ :: _ =>
    let r := fgetsTake (size - 1) stream
    (some (bufStore buf (r.1 ++ [NUL])), r.2)

/-! ## wifi_nano.h -/

/-! The C enum `driver_status` is an unsigned integer, a `Nat` here. -/

def DRV_UNLOADED : Nat := 0
def DRV_SLEEPING : Nat := 1
def DRV_WIFI_ON : Nat := 2
def DRV_SOFT_AP : Nat := 3
def DRV_ERROR : Nat := 4
def DRV_UNKNOWN : Nat := 5

/-- The table `DRV_STATUS_STRINGS`. -/
def DRV_STATUS_STRINGS : List (List Char) :=
  ["unloaded".toList, "sleeping".toList, "WiFi on".toList, "Soft AP".toList,
   "error".toList, "unknown".toList]

def TIMEOUT_STEP : Int := 100000
def TIMEOUT_DRV_LOAD : Int := 4000000
def TIMEOUT_DRV_WAKEUP : Int := 1000000
def TIMEOUT_DRV_SLEEP : Int := 1000000
def TIMEOUT_DRV_UNLOAD : Int := 1000000
def TIMEOUT_SUPPLICANT : Int := 1500000

/-! ## The world -/

/-- The outcome of one `wpa_ctrl_request`: its return value, and the reply
buffer and reply length as the transport leaves them. -/
structure ReqOutcome where
  ret : Int
  reply : List Char
  reply_len : Nat
deriving DecidableEq, Repr

/-- The outcome of one `wpa_ctrl_recv`: its return value and the bytes
received. -/
structure RecvOutcome where
  result : Int
  payload : List Char
deriving DecidableEq, Repr

/-- The files the program provisions: the entropy file `SUPP_ENTROPY_FILE`, the
supplicant configuration `SUPP_CONFIG_FILE` and its template
`SUPP_CONFIG_TEMPLATE`. -/
inductive FsPath where
  | entropy
  | config
  | template
deriving DecidableEq, Repr

/-- A file: its bytes, its permission bits, and the owner and group a `chown`
gave it (`none`: those it was created with). -/
structure FileState where
  content : List Nat := []
  mode : Nat := 0
  owner : Option (Nat × Nat) := none
deriving DecidableEq, Repr

/-- Calls that leave the program. -/
inductive Call where
  | fopen_status
  | fopen_proc
  | usleep (us : Int)
  | sched_yield
  | property_set (key val : List Char)
  | property_get (key : List Char)
  | access_iface_dir
  | wpa_ctrl_open (ifname : List Char) (res : Option Nat)
  | wpa_ctrl_close (h : Nat)
  | wpa_ctrl_attach (h : Nat)
  | wpa_ctrl_request (h : Option Nat) (cmd : List Char)
  | wpa_ctrl_recv (h : Nat)
  | wpa_ctrl_cleanup
  | system_property_find
  | system_property_read
  | sys_access (p : FsPath)
  | sys_open (p : FsPath)
  | sys_read (p : FsPath)
  | sys_write (p : FsPath) (data : List Nat)
  | sys_close (p : FsPath)
  | sys_chmod (p : FsPath) (mode : Nat)
  | sys_chown (p : FsPath) (uid gid : Nat)
  | sys_unlink (p : FsPath)
deriving DecidableEq, Repr

/-- Program globals, the scripted environment, and the record of calls. -/
structure World where
  /-- `static struct wpa_ctrl *ctrl_conn` (`none` is NULL). -/
  ctrl_conn : Option Nat := none
  /-- `static struct wpa_ctrl *monitor_conn`. -/
  monitor_conn : Option Nat := none
  /-- `static char iface[PROPERTY_VALUE_MAX]`. -/
  iface : List Char := []
  /-- `static char errmsg_buf[128]`. -/
  errmsg_buf : List Char := []
  /-- `static char driver_status_buf[64]` of `get_driver_status`. -/
  driver_status_buf : List Char := []
  /-- Content of the status file at each coming `fopen`; `none`: the file
  cannot be opened. -/
  status_src : List (Option (List Char)) := []
  /-- Whether `/proc/driver/wlan0/status` can be opened, at each coming
  `fopen`. -/
  liveness : List Bool := []
  /-- Value read by each coming `property_get` (empty: not set). -/
  prop_values : List (List Char) := []
  /-- Whether `access(IFACE_DIR, F_OK)` succeeds, at each coming call. -/
  iface_dir : List Bool := []
  /-- Whether each coming `wpa_ctrl_open` succeeds. -/
  open_results : List Bool := []
  /-- Return value of each coming `wpa_ctrl_attach`. -/
  attach_results : List Int := []
  /-- Outcome of each coming `wpa_ctrl_request`. -/
  request_results : List ReqOutcome := []
  /-- Outcome of each coming `wpa_ctrl_recv`. -/
  recv_results : List RecvOutcome := []
  /-- Whether each coming `__system_property_find` finds the property. -/
  find_results : List Bool := []
  /-- Value and serial of the property at each coming look at its
  `prop_info`. -/
  prop_infos : List (List Char × Nat) := []
  /-- The entropy file, when there is one. -/
  entropy_file : Option FileState := none
  /-- The supplicant configuration file, when there is one. -/
  config_file : Option FileState := none
  /-- The template of the configuration file, when there is one. -/
  template_file : Option FileState := none
  /-- The `errno` of each coming `access` (0: the call succeeds). -/
  access_errnos : List Nat := []
  /-- Return value of each coming `open`, `read`, `write`, `chmod` and
  `chown` (for a `read` or `write`: the most it may transfer). -/
  fs_results : List Int := []
  /-- The file mode creation mask of the process. -/
  umask : Nat := 0
  /-- The handle the next successful `wpa_ctrl_open` returns. -/
  next_handle : Nat := 0
  /-- Control connections opened and not yet closed. -/
  open_conns : List Nat := []
  /-- The calls made so far, oldest first. -/
  trace : List Call := []
deriving DecidableEq, Repr

/-- Record a call. -/
def World.log (w : World) (c : Call) : World := { w with trace := w.trace ++ [c] }

/-! ## External calls -/

/-- Open the driver status file, `fopen(WIFI_DRIVER_STATUS_PATH, "r")`: the
content to read, or `none` for NULL. -/
def fopen_status (w : World) : World × Option (List Char) :=
  match w.status_src with
  | [] => (w.log Call.fopen_status, none)
  | f :: q => ({ w.log Call.fopen_status with status_src := q }, f)

/-- Open the liveness entry, `fopen("/proc/driver/wlan0/status", "r")` followed by
`fclose` when it succeeds: whether the entry could be opened. -/
def fopen_proc (w : World) : World × Bool :=
  match w.liveness with
  | [] => (w.log Call.fopen_proc, false)
  | b :: q => ({ w.log Call.fopen_proc with liveness := q }, b)

def usleep (w : World) (us : Int) : World := w.log (Call.usleep us)

def property_set (w : World) (key val : List Char) : World :=
  w.log (Call.property_set (cstr key) (cstr val))

/-- The call `property_get(key, value, NULL)`: the value read, a C string; the
return value of the call is its length. -/
def property_get (w : World) (key : List Char) : World × List Char :=
  match w.prop_values with
  | [] => (w.log (Call.property_get (cstr key)), [])
  | v :: q => ({ w.log (Call.property_get (cstr key)) with prop_values := q }, cstr v)

def access_iface_dir (w : World) : World × Bool :=
  match w.iface_dir with
  | [] => (w.log Call.access_iface_dir, false)
  | b :: q => ({ w.log Call.access_iface_dir with iface_dir := q }, b)

/-- One `wpa_ctrl_open`: a new handle, recorded as open, or `none` for NULL. -/
def wpa_ctrl_open (w : World) (ifname : List Char) : World × Option Nat :=
  match w.open_results with
  | true :: q =>
    ({ w.log (Call.wpa_ctrl_open (cstr ifname) (some w.next_handle)) with
        open_results := q
        next_handle := w.next_handle + 1
        open_conns := w.next_handle :: w.open_conns },
      some w.next_handle)
  | false :: q =>
    ({ w.log (Call.wpa_ctrl_open (cstr ifname) none) with open_results := q }, none)
  | [] => (w.log (Call.wpa_ctrl_open (cstr ifname) none), none)

/-- One `wpa_ctrl_close`; the program never passes NULL. -/
def wpa_ctrl_close (w : World) (ctrl : Option Nat) : World :=
  match ctrl with
  | none => w
  | some h => { w.log (Call.wpa_ctrl_close h) with open_conns := w.open_conns.erase h }

def wpa_ctrl_attach (w : World) (ctrl : Option Nat) : World × Int :=
  match ctrl with
  | none => (w, -1)
  | some h =>
    match w.attach_results with
    | [] => (w.log (Call.wpa_ctrl_attach h), -1)
    | r :: q => ({ w.log (Call.wpa_ctrl_attach h) with attach_results := q }, r)

/-- One `wpa_ctrl_request(ctrl, cmd, strlen(cmd), reply, reply_len, NULL)`. -/
def wpa_ctrl_request (w : World) (ctrl : Option Nat) (cmd reply : List Char)
    (reply_len : Nat) : World × ReqOutcome :=
  match w.request_results with
  | [] => (w.log (Call.wpa_ctrl_request ctrl (cstr cmd)), ⟨-1, reply, reply_len⟩)
  | o :: q => ({ w.log (Call.wpa_ctrl_request ctrl (cstr cmd)) with request_results := q }, o)

/-- One `wpa_ctrl_recv(ctrl, buf, &nread)`: on success at most `nread` bytes
are stored at the start of `buf` and `nread` becomes their number; on failure
both are left alone.  The result is the return value, the buffer and `nread`. -/
def wpa_ctrl_recv (w : World) (h : Nat) (buf : List Char) (nread : Nat) :
    World × Int × List Char × Nat :=
  match w.recv_results with
  | [] => (w.log (Call.wpa_ctrl_recv h), -1, buf, nread)
  | o :: q =>
    if o.result < 0 then
      ({ w.log (Call.wpa_ctrl_recv h) with recv_results := q }, o.result, buf, nread)
    else
      ({ w.log (Call.wpa_ctrl_recv h) with recv_results := q }, o.result,
        bufStore buf (o.payload.take nread), (o.payload.take nread).length)

def wpa_ctrl_cleanup (w : World) : World := w.log Call.wpa_ctrl_cleanup

def sched_yield (w : World) : World := w.log Call.sched_yield

/-- One `__system_property_find(SUPP_PROP_NAME)`: whether a `prop_info` is
returned. -/
def system_property_find (w : World) : World × Bool :=
  match w.find_results with
  | [] => (w.log Call.system_property_find, false)
  | b :: q => ({ w.log Call.system_property_find with find_results := q }, b)

/-- One look at the `prop_info` of the property: its value, a C string, and
its serial as they stand then. -/
def look_prop_info (w : World) : World × (List Char × Nat) :=
  match w.prop_infos with
  | [] => (w, ([], 0))
  | i :: q => ({ w with prop_infos := q }, (cstr i.1, i.2))

/-- One `__system_property_read(pi, NULL, value)`, with the serial `pi->serial`
of the same moment. -/
def system_property_read (w : World) : World × (List Char × Nat) :=
  look_prop_info (w.log Call.system_property_read)

def ENOENT : Nat := 2
def EACCES : Nat := 13

/-- The file at a path. -/
def World.file (w : World) : FsPath → Option FileState
  | FsPath.entropy => w.entropy_file
  | FsPath.config => w.config_file
  | FsPath.template => w.template_file

/-- Put a file at a path, or remove the one there. -/
def World.setFile (w : World) (p : FsPath) (f : Option FileState) : World :=
  match p with
  | FsPath.entropy => { w with entropy_file := f }
  | FsPath.config => { w with config_file := f }
  | FsPath.template => { w with template_file := f }

/-- The scripted return value of the file call being made. -/
def next_fs_result (w : World) : World × Int :=
  match w.fs_results with
  | [] => (w, -1)
  | r :: q => ({ w with fs_results := q }, r)

/-- The scripted `errno` of the `access` being made. -/
def next_access_errno (w : World) : World × Nat :=
  match w.access_errnos with
  | [] => (w, 0)
  | e :: q => ({ w with access_errnos := q }, e)

/-- One `access(path, R_OK|W_OK)`: the return value and `errno`.  A missing
file fails with `ENOENT` when the script names no other error. -/
def sys_access (w : World) (p : FsPath) : World × Int × Nat :=
  let e := next_access_errno (w.log (Call.sys_access p))
  if e.2 ≠ 0 then (e.1, -1, e.2)
  else if (e.1.file p).isSome then (e.1, 0, 0)
  else (e.1, -1, ENOENT)

/-- The mode of a file created with mode 0660 under a creation mask. -/
def create_mode (umask : Nat) : Nat := 0o660 &&& (0o777 ^^^ (umask &&& 0o777))

/-- One `open(path, flags, 0660)`, with `O_CREAT` among the flags or not: the
descriptor or a negative value.  A missing file is created, empty, when
`O_CREAT` is given. -/
def sys_open (w : World) (p : FsPath) (creat : Bool) : World × Int :=
  let r := next_fs_result (w.log (Call.sys_open p))
  if r.2 < 0 then r
  else
    match r.1.file p with
    | some _ => r
    | none =>
      if creat then
        (r.1.setFile p (some { content := [], mode := create_mode r.1.umask, owner := none }),
          r.2)
      else (r.1, -1)

/-- One `read(fd, buf, n)` at offset `off` of the file: the return value and
the bytes read. -/
def sys_read (w : World) (p : FsPath) (off n : Nat) : World × Int × List Nat :=
  let r := next_fs_result (w.log (Call.sys_read p))
  if r.2 < 0 then (r.1, r.2, [])
  else
    match r.1.file p with
    | none => (r.1, -1, [])
    | some f => (r.1, (((f.content.drop off).take n).length : Int), (f.content.drop off).take n)

/-- One `write(fd, data, n)` at offset `off` of the file: the bytes the script
lets through are stored, and their number is returned. -/
def sys_write (w : World) (p : FsPath) (off : Nat) (data : List Nat) : World × Int :=
  let r := next_fs_result (w.log (Call.sys_write p data))
  if r.2 < 0 then r
  else
    match r.1.file p with
    | none => (r.1, -1)
    | some f =>
      (r.1.setFile p (some { f with
          content := f.content.take off ++ data.take r.2.toNat ++
            f.content.drop (off + (data.take r.2.toNat).length) }),
        ((data.take r.2.toNat).length : Int))

def sys_close (w : World) (p : FsPath) : World := w.log (Call.sys_close p)

/-- One `chmod(path, mode)`: 0 or -1. -/
def sys_chmod (w : World) (p : FsPath) (mode : Nat) : World × Int :=
  let r := next_fs_result (w.log (Call.sys_chmod p mode))
  match r.1.file p with
  | none => (r.1, -1)
  | some f =>
    if r.2 = 0 then (r.1.setFile p (some { f with mode := mode }), 0)
    else (r.1, -1)

/-- One `chown(path, uid, gid)`: 0 or -1. -/
def sys_chown (w : World) (p : FsPath) (uid gid : Nat) : World × Int :=
  let r := next_fs_result (w.log (Call.sys_chown p uid gid))
  match r.1.file p with
  | none => (r.1, -1)
  | some f =>
    if r.2 = 0 then (r.1.setFile p (some { f with owner := some (uid, gid) }), 0)
    else (r.1, -1)

def sys_unlink (w : World) (p : FsPath) : World :=
  (w.log (Call.sys_unlink p)).setFile p none

/-! ## wifi_nano.c -/

def WIFI_DRIVER_IFACE : List Char := "wlan0".toList
def IFACE_DIR : List Char := "/data/misc/wifi/wpa_supplicant".toList
def DRIVER_PROP_NAME : List Char := "wlan.driver.status".toList
def SUPP_PROP_NAME : List Char := "init.svc.wpa_supplicant".toList

/-- The loop of `check_and_set_property`, with `count` its counter. -/
def check_and_set_loop (prop_name prop_val : List Char) : Nat → World → World × Nat
  | 0, w => (w, 0)
  | count + 1, w =>
    let g := property_get (property_set w prop_name prop_val) prop_name
    if g.2.length ≠ 0 ∧ strcmp g.2 prop_val = 0 then (g.1, count + 1)
    else check_and_set_loop prop_name prop_val count g.1

def check_and_set_property (w : World) (prop_name prop_val : List Char) : World × Nat :=
  check_and_set_loop prop_name prop_val 8 w

/-- The label scan of `get_driver_status`,
`for (drv_status = DRV_UNLOADED; drv_status < DRV_UNKNOWN; drv_status++)`,
from `drv_status` on; the first argument bounds the iterations left. -/
def scan_status (buf : List Char) : Nat → Nat → Nat
  | 0, drv_status => drv_status
  | n + 1, drv_status =>
    if drv_status < DRV_UNKNOWN then
      if strcmp buf (DRV_STATUS_STRINGS.getD drv_status []) = 0 then drv_status
      else scan_status buf n (drv_status + 1)
    else drv_status

/-- The part of `get_driver_status` that follows a successful `fopen`:
the status buffer, the error buffer and the status, from the two buffers and
the content of the file. -/
def read_driver_status (driver_status_buf errmsg_buf stream : List Char) :
    List Char × List Char × Nat :=
  let line := fgets driver_status_buf 64 stream
  let buf := line.1.getD driver_status_buf
  let driver_status_len := strlen buf
  let parsed : List Char × Nat :=
    if line.1.isSome ∧ driver_status_len > 1 then
      let buf1 :=
        if charAt buf (driver_status_len - 1) = '\n' then
          bufSet buf (driver_status_len - 1) NUL
        else buf
      (buf1, scan_status buf1 DRV_UNKNOWN DRV_UNLOADED)
    else (buf, DRV_UNKNOWN)
  if parsed.2 = DRV_ERROR then
    let e := bufSet errmsg_buf 0 NUL
    (parsed.1, (fgets e 128 line.2).1.getD e, parsed.2)
  else (parsed.1, errmsg_buf, parsed.2)

def get_driver_status (w : World) : World × Nat :=
  let f := fopen_status w
  match f.2 with
  | none => (f.1, DRV_UNKNOWN)
  | some stream =>
    let r := read_driver_status f.1.driver_status_buf f.1.errmsg_buf stream
    ({ f.1 with driver_status_buf := r.1, errmsg_buf := r.2.1 }, r.2.2)

def driver_status_to_str (drv_status : Nat) : List Char :=
  let drv_status := if drv_status > DRV_UNKNOWN then DRV_UNKNOWN else drv_status
  DRV_STATUS_STRINGS.getD drv_status []

/-- The loop of `wait_on_driver_status`; the first argument bounds the
iterations left (each one lowers `timeout` by `TIMEOUT_STEP`, so `timeout`
iterations are never used up). -/
def wait_loop (final_status : Nat) :
    Nat → World → Nat → Int → World × Nat
  | 0, w, drv_status, _ => (w, drv_status)
  | fuel + 1, w, drv_status, timeout =>
    if drv_status ≠ final_status ∧ drv_status ≠ DRV_ERROR ∧ timeout > 0 then
      let r := get_driver_status (usleep w TIMEOUT_STEP)
      wait_loop final_status fuel r.1 r.2 (timeout - TIMEOUT_STEP)
    else (w, drv_status)

def wait_on_driver_status (final_status : Nat) (timeout : Int) (w : World) :
    World × Nat :=
  let r := get_driver_status w
  wait_loop final_status timeout.toNat r.1 r.2 timeout

def is_wifi_driver_loaded (w : World) : World × Int :=
  let r := get_driver_status w
  if r.2 = DRV_WIFI_ON then
    let p := fopen_proc r.1
    if p.2 then (p.1, 0)
    else (p.1, if DRV_UNKNOWN = DRV_WIFI_ON then 1 else 0)
  else (r.1, if r.2 = DRV_WIFI_ON then 1 else 0)

/-- The end of `wifi_load_driver`, from the second liveness check on. -/
def wifi_load_driver_check (w : World) : World × Int :=
  let p := fopen_proc w
  if p.2 then ((check_and_set_property p.1 DRIVER_PROP_NAME "ok".toList).1, 0)
  else
    let w1 := (check_and_set_property p.1 DRIVER_PROP_NAME "unloaded".toList).1
    let w2 := property_set w1 "ctl.start".toList "nanowifi_stop".toList
    ((wait_on_driver_status DRV_UNLOADED TIMEOUT_DRV_UNLOAD w2).1, -1)

/-- The rest of `wifi_load_driver` once `drv_status` is settled: the load
request for an unloaded or unknown driver, then the end above. -/
def wifi_load_driver_start (w : World) (drv_status : Nat) : World × Int :=
  if drv_status = DRV_UNLOADED ∨ drv_status = DRV_UNKNOWN then
    wifi_load_driver_check
      (wait_on_driver_status DRV_WIFI_ON (TIMEOUT_DRV_LOAD + TIMEOUT_DRV_WAKEUP)
        (property_set w "ctl.start".toList "nanowifi_start".toList)).1
  else wifi_load_driver_check w

/-- The statement `memcpy(iface, WIFI_DRIVER_IFACE, sizeof(WIFI_DRIVER_IFACE))`. -/
def memcpy_iface (w : World) : World :=
  { w with iface := bufStore w.iface (WIFI_DRIVER_IFACE ++ [NUL]) }

def wifi_load_driver (w : World) : World × Int :=
  let r := get_driver_status w
  let w1 := memcpy_iface r.1
  if r.2 = DRV_WIFI_ON then
    let p := fopen_proc w1
    if p.2 then (p.1, 0)
    else wifi_load_driver_start p.1 DRV_UNKNOWN
  else wifi_load_driver_start w1 r.2

def wifi_unload_driver (w : World) : World × Int :=
  let r := get_driver_status w
  if r.2 ≠ DRV_WIFI_ON then (r.1, 0)
  else
    let s := wait_on_driver_status DRV_UNLOADED TIMEOUT_DRV_UNLOAD
      (property_set r.1 "ctl.start".toList "nanowifi_stop".toList)
    (s.1, if s.2 = DRV_UNLOADED then 0 else -1)

/-- The assignment `ctrl_conn = c`. -/
def set_ctrl_conn (w : World) (c : Option Nat) : World := { w with ctrl_conn := c }

/-- The assignment `monitor_conn = c`. -/
def set_monitor_conn (w : World) (c : Option Nat) : World := { w with monitor_conn := c }

/-- The retry loop of `wifi_connect_to_supplicant`; the first argument bounds
the iterations left (each one lowers `supplicant_timeout` by `TIMEOUT_STEP`). -/
def ctrl_open_retry (ifname : List Char) : Nat → World → Int → World
  | 0, w, _ => w
  | fuel + 1, w, supplicant_timeout =>
    if w.ctrl_conn = none ∧ supplicant_timeout > 0 then
      let o := wpa_ctrl_open (usleep w TIMEOUT_STEP) ifname
      ctrl_open_retry ifname fuel (set_ctrl_conn o.1 o.2) (supplicant_timeout - TIMEOUT_STEP)
    else w

/-- The end of `wifi_connect_to_supplicant`, once the command connection is
open: the event connection and its attachment. -/
def connect_monitor (w : World) (ifname : List Char) : World × Int :=
  let m := wpa_ctrl_open w ifname
  let w1 := set_monitor_conn m.1 m.2
  if w1.monitor_conn = none then
    (set_ctrl_conn (wpa_ctrl_close w1 w1.ctrl_conn) none, -1)
  else
    let t := wpa_ctrl_attach w1 w1.monitor_conn
    if t.2 ≠ 0 then
      let w2 := wpa_ctrl_close t.1 t.1.monitor_conn
      (set_monitor_conn (set_ctrl_conn (wpa_ctrl_close w2 w2.ctrl_conn) none) none, -1)
    else (t.1, 0)

def wifi_connect_to_supplicant (w : World) : World × Int :=
  let g := property_get w SUPP_PROP_NAME
  if g.2.length = 0 ∨ strcmp g.2 "running".toList ≠ 0 then (g.1, -1)
  else
    let a := access_iface_dir g.1
    let ifname :=
      if a.2 then (IFACE_DIR ++ '/' :: cstr a.1.iface).take 255
      else (cstr a.1.iface).take 255
    let o := wpa_ctrl_open a.1 ifname
    let w1 := ctrl_open_retry ifname TIMEOUT_SUPPLICANT.toNat (set_ctrl_conn o.1 o.2)
      TIMEOUT_SUPPLICANT
    if w1.ctrl_conn = none then (w1, -1)
    else connect_monitor w1 ifname

/-- What `wifi_send_command` leaves behind: the world, the reply buffer, the
reply length and the return value. -/
structure SendResult where
  world : World
  reply : List Char
  reply_len : Nat
  ret : Int
deriving DecidableEq, Repr

def wifi_send_command (w : World) (ctrl : Option Nat) (cmd reply : List Char)
    (reply_len : Nat) : SendResult :=
  if w.ctrl_conn = none then ⟨w, reply, reply_len, -1⟩
  else
    let x := wpa_ctrl_request w ctrl cmd reply reply_len
    let w1 := if strcmp cmd "DRIVER START".toList = 0 then (wifi_load_driver x.1).1 else x.1
    let w2 := if strcmp cmd "DRIVER STOP".toList = 0 then (wifi_unload_driver w1).1 else w1
    if x.2.ret = -2 then ⟨w2, x.2.reply, x.2.reply_len, -2⟩
    else if x.2.ret < 0 ∨ strncmp x.2.reply "FAIL".toList 4 = 0 then
      ⟨w2, x.2.reply, x.2.reply_len, -1⟩
    else if strncmp cmd "PING".toList 4 = 0 then
      ⟨w2, bufSet x.2.reply x.2.reply_len NUL, x.2.reply_len, 0⟩
    else ⟨w2, x.2.reply, x.2.reply_len, 0⟩

def wifi_command (w : World) (command reply : List Char) (reply_len : Nat) : SendResult :=
  wifi_send_command w w.ctrl_conn command reply reply_len

/-- The largest `size_t` (32-bit target). -/
def SIZE_MAX : Nat := 2 ^ 32 - 1

/-- The value of `buflen - 1` in `size_t` arithmetic: 0 wraps around. -/
def buflen_minus_1 (buflen : Nat) : Nat := if buflen = 0 then SIZE_MAX else buflen - 1

/-- What `wifi_wait_for_event` leaves behind: the world, the caller's buffer
and the return value. -/
structure EventResult where
  world : World
  buf : List Char
  ret : Int
deriving DecidableEq, Repr

/-- The fabricated events of `wifi_wait_for_event`:
`strncpy(buf, msg, buflen-1); buf[buflen-1] = 0; return strlen(buf);`. -/
def fabricate_event (w : World) (buf msg : List Char) (buflen : Nat) : EventResult :=
  let b := bufSet (strncpy buf msg (buflen_minus_1 buflen)) (buflen_minus_1 buflen) NUL
  ⟨w, b, strlen b⟩

/-- The function `wifi_wait_for_event`; `WPA_EVENT_TERMINATING` is a string
constant of `wpa_ctrl.h`, a parameter here. -/
def wifi_wait_for_event (WPA_EVENT_TERMINATING : List Char) (w : World)
    (buf : List Char) (buflen : Nat) : EventResult :=
  match w.monitor_conn with
  | none => fabricate_event w buf (WPA_EVENT_TERMINATING ++ " - connection closed".toList) buflen
  | some h =>
    let r := wpa_ctrl_recv w h buf (buflen_minus_1 buflen)
    let result := r.2.1
    let nread := r.2.2.2
    if result < 0 then
      fabricate_event r.1 r.2.2.1 (WPA_EVENT_TERMINATING ++ " - recv error".toList) buflen
    else
      let buf1 := bufSet r.2.2.1 nread NUL
      if result = 0 ∧ nread = 0 then
        fabricate_event r.1 buf1 (WPA_EVENT_TERMINATING ++ " - signal 0 received".toList) buflen
      else if charAt buf1 0 = '<' then
        match strchr buf1 '>' with
        | some k =>
          let nread1 := nread - (k + 1)
          ⟨r.1, bufStore buf1 (bufRead buf1 (k + 1) (nread1 + 1)), nread1⟩
        | none => ⟨r.1, buf1, nread⟩
      else ⟨r.1, buf1, nread⟩

def wifi_close_supplicant_connection (w : World) : World :=
  let w1 :=
    if w.ctrl_conn ≠ none then set_ctrl_conn (wpa_ctrl_close w w.ctrl_conn) none
    else w
  if w1.monitor_conn ≠ none then
    set_monitor_conn (wpa_ctrl_close w1 w1.monitor_conn) none
  else w1

/-- The user and group ids `AID_SYSTEM` and `AID_WIFI` of
`private/android_filesystem_config.h`. -/
def AID_SYSTEM : Nat := 1000
def AID_WIFI : Nat := 1010

/-- The array `dummy_key`. -/
def dummy_key : List Nat :=
  [0x02, 0x11, 0xbe, 0x33, 0x43, 0x35, 0x68, 0x47, 0x84, 0x99, 0xa9, 0x2b,
   0x1c, 0xd3, 0xee, 0xff, 0xf1, 0xe2, 0xf3, 0xf4, 0xf5]

def ensure_entropy_file_exists (w : World) : World × Int :=
  let a := sys_access w FsPath.entropy
  if a.2.1 = 0 ∨ a.2.2 = EACCES then
    if a.2.1 ≠ 0 then
      let c := sys_chmod a.1 FsPath.entropy 0o660
      if c.2 ≠ 0 then (c.1, -1) else (c.1, 0)
    else (a.1, 0)
  else
    let o := sys_open a.1 FsPath.entropy true
    if o.2 < 0 then (o.1, -1)
    else
      let wr := sys_write o.1 FsPath.entropy 0 dummy_key
      if wr.2 ≠ 21 then (sys_close wr.1 FsPath.entropy, -1)
      else
        let c := sys_chmod (sys_close wr.1 FsPath.entropy) FsPath.entropy 0o660
        if c.2 < 0 then (sys_unlink c.1 FsPath.entropy, -1)
        else
          let h := sys_chown c.1 FsPath.entropy AID_SYSTEM AID_WIFI
          if h.2 < 0 then (sys_unlink h.1 FsPath.entropy, -1)
          else (h.1, 0)

/-! ## Specification vocabulary -/

/-- The calls made between `w` and `w1` all satisfy `P`. -/
def Adds (P : Call → Prop) (w w1 : World) : Prop :=
  ∃ evs, w1.trace = w.trace ++ evs ∧ ∀ e ∈ evs, P e

/-- The number of `get_driver_status` calls recorded in a world: each call
opens the status file once. -/
def polls (w : World) : Nat := w.trace.count Call.fopen_status

/-- The value of ceil(timeout / TIMEOUT_STEP), for a timeout in microseconds
(0 for a negative one). -/
def ceil_steps (timeout : Int) : Nat := (timeout.toNat + 99999) / 100000

/-- The text `line` is the first line of `file`: it holds no newline and
`file` is `line` followed by a newline and the rest, or `line` alone. -/
def FirstLine (file line : List Char) : Prop :=
  '\n' ∉ line ∧ (file = line ∨ ∃ rest, file = line ++ '\n' :: rest)

/-- The scenario of the specification: the status file reads `unloaded`, then
`WiFi on` once the start service ran, and the liveness entry is there. -/
def load_scenario : World :=
  { status_src := [some "unloaded\n".toList, some "WiFi on\n".toList]
    liveness := [true]
    prop_values := ["ok".toList] }

/-- A stale On: the status file reads `WiFi on` and the liveness entry is
missing. -/
def stale_on : World :=
  { status_src := [some "WiFi on\n".toList, some "WiFi on\n".toList]
    liveness := [false, false] }

/-- A live On: the status file reads `WiFi on` and the liveness entry is
there. -/
def live_on : World :=
  { status_src := [some "WiFi on\n".toList]
    liveness := [true] }

/-- A line without its final newline, when it has one: what
`if (buf[len-1] == '\n') buf[len-1] = '\0';` leaves of a C string. -/
def strip_newline (s : List Char) : List Char :=
  if s.getD (s.length - 1) NUL = '\n' then s.take (s.length - 1) else s

/-- The poll made after `k` sleep steps by a `wait_on_driver_status` that has
not stopped before: the first poll, then a sleep step and a poll, `k` times. -/
def poll_after : Nat → World → World × Nat
  | 0, w => get_driver_status w
  | k + 1, w => get_driver_status (usleep (poll_after k w).1 TIMEOUT_STEP)

/-- The number of sleep steps recorded in a world. -/
def sleeps (w : World) : Nat := w.trace.count (Call.usleep TIMEOUT_STEP)

/-- The connection state of `w1` is that of `w`: both handles, the open
connections and the next handle. -/
def KeepsConns (w w1 : World) : Prop :=
  w1.ctrl_conn = w.ctrl_conn ∧ w1.monitor_conn = w.monitor_conn ∧
    w1.open_conns = w.open_conns ∧ w1.next_handle = w.next_handle

/-- The connection state and the interface name of `w1` are those of `w`. -/
def Keeps (w w1 : World) : Prop := KeepsConns w w1 ∧ w1.iface = w.iface

/-- The two driver lifecycle calls. -/
inductive DriverOp where
  | load
  | unload
deriving DecidableEq, Repr

/-- Run a sequence of driver lifecycle calls, dropping their return values. -/
def run_driver : List DriverOp → World → World
  | [], w => w
  | DriverOp.load :: ops, w => run_driver ops (wifi_load_driver w).1
  | DriverOp.unload :: ops, w => run_driver ops (wifi_unload_driver w).1

/-- A driver that does not come up: the status file reads `unloaded` and the
liveness entry never appears. -/
def load_fails : World :=
  { status_src := [some "unloaded\n".toList] }

/-- A driver that comes up and goes down: the status file reads `unloaded`,
`WiFi on` after the start, still `WiFi on` at the unload, then `unloaded`. -/
def load_then_unload : World :=
  { status_src := [some "unloaded\n".toList, some "WiFi on\n".toList,
      some "WiFi on\n".toList, some "unloaded\n".toList]
    liveness := [true]
    prop_values := ["ok".toList] }

/-- A daemon that runs and accepts both connections at once. -/
def connect_ok : World :=
  { prop_values := ["running".toList]
    open_results := [true, true]
    attach_results := [0] }

/-- A daemon that runs and accepts every connection, twice over. -/
def connect_twice : World :=
  { prop_values := ["running".toList, "running".toList]
    open_results := [true, true, true, true]
    attach_results := [0, 0] }

/-- The calls of a control-channel session. -/
inductive SessionOp where
  | connect
  | send (command reply : List Char) (reply_len : Nat)
  | waitEvent (buf : List Char) (buflen : Nat)
  | close
deriving DecidableEq, Repr

/-- One call of a session, its result dropped; `term` is the constant
`WPA_EVENT_TERMINATING`. -/
def session_step (term : List Char) (w : World) : SessionOp → World
  | SessionOp.connect => (wifi_connect_to_supplicant w).1
  | SessionOp.send command reply reply_len => (wifi_command w command reply reply_len).world
  | SessionOp.waitEvent buf buflen => (wifi_wait_for_event term w buf buflen).world
  | SessionOp.close => wifi_close_supplicant_connection w

/-- Run a sequence of session calls. -/
def run_session (term : List Char) : List SessionOp → World → World
  | [], w => w
  | op :: ops, w => run_session term ops (session_step term w op)

/-- In the run of `ops` from `w`, every connect is called with both handles
empty. -/
def ConnectsWhenClosed (term : List Char) : List SessionOp → World → Prop
  | [], _ => True
  | op :: ops, w =>
    (op = SessionOp.connect → w.ctrl_conn = none ∧ w.monitor_conn = none) ∧
      ConnectsWhenClosed term ops (session_step term w op)

instance decConnectsWhenClosed (term : List Char) :
    (ops : List SessionOp) → (w : World) → Decidable (ConnectsWhenClosed term ops w)
  | [], _ => isTrue trivial
  | op :: ops, w =>
    have := decConnectsWhenClosed term ops (session_step term w op)
    inferInstanceAs (Decidable
      ((op = SessionOp.connect → w.ctrl_conn = none ∧ w.monitor_conn = none) ∧
        ConnectsWhenClosed term ops (session_step term w op)))

/-- The open connections are distinct and older than the next handle. -/
def FreshConns (w : World) : Prop :=
  w.open_conns.Nodup ∧ ∀ h ∈ w.open_conns, h < w.next_handle

/-- The open connections are exactly those the two handles name. -/
def SessionInv (w : World) : Prop :=
  FreshConns w ∧ ∀ h, h ∈ w.open_conns ↔ (w.ctrl_conn = some h ∨ w.monitor_conn = some h)

/-- No entropy file yet; the `open` succeeds and the `write` stores 10 of the
21 bytes (a full disk). -/
def entropy_short_write : World :=
  { fs_results := [3, 10] }

/-- No entropy file yet; `open` and `write` succeed and the `chmod` fails. -/
def entropy_chmod_fails : World :=
  { fs_results := [3, 21, -1] }

/-- No entropy file yet; `open`, `write` and `chmod` succeed and the `chown`
fails. -/
def entropy_chown_fails : World :=
  { fs_results := [3, 21, 0, -1] }

/-- No entropy file yet, and every call succeeds. -/
def entropy_all_succeed : World :=
  { fs_results := [3, 21, 0, 0], umask := 0o077 }

/-- What a polling iteration of `wifi_start_supplicant` entered in world `w`
reads: the value and the serial of the property, or nothing when no
`prop_info` is found (the plain `property_get` variant has no serial: 0). -/
def poll_reading (have_libc_system_properties : Bool) (w : World) (pi : Bool) :
    Option (List Char × Nat) :=
  if have_libc_system_properties then
    if (if pi then (w, true) else system_property_find w).2 then
      some (system_property_read (if pi then (w, true) else system_property_find w).1).2
    else none
  else some ((property_get w SUPP_PROP_NAME).2, 0)

/-- The iteration entered in `s` reads "running". -/
def reads_running (have_libc_system_properties : Bool) (s : World × Bool) : Prop :=
  (poll_reading have_libc_system_properties s.1 s.2).map Prod.fst = some "running".toList

/-- The iteration entered in `s` reads "stopped" with a serial other than
`serial`. -/
def sees_crash (have_libc_system_properties : Bool) (serial : Nat) (s : World × Bool) : Prop :=
  have_libc_system_properties = true ∧
    (poll_reading have_libc_system_properties s.1 s.2).map Prod.fst = some "stopped".toList ∧
    (poll_reading have_libc_system_properties s.1 s.2).map Prod.snd ≠ some serial

instance decReadsRunning (hv : Bool) (s : World × Bool) : Decidable (reads_running hv s) := by
  unfold reads_running
  exact inferInstance

instance decSeesCrash (hv : Bool) (serial : Nat) (s : World × Bool) :
    Decidable (sees_crash hv serial s) := by
  unfold sees_crash
  exact inferInstance

theorem cstr_append_NUL (a b : List Char) : cstr (a ++ NUL :: b) = cstr a := by
  induction a with
  | nil => simp [cstr]
  | cons c cs ih => simp [cstr, ih]

theorem strlen_eq (s : List Char) : strlen s = (cstr s).length := by
  induction s with
  | nil => simp [strlen, cstr]
  | cons c cs ih => by_cases h : c = NUL <;> simp [strlen, cstr, h, ih]

theorem strcmp_eq_zero (a b : List Char) : strcmp a b = 0 ↔ cstr a = cstr b := by
  induction a generalizing b with
  | nil =>
    cases b with
    | nil => simp [strcmp, cstr]
    | cons y ys => by_cases h : y = NUL <;> simp [strcmp, cstr, h]
  | cons x xs ih =>
    cases b with
    | nil => by_cases h : x = NUL <;> simp [strcmp, cstr, h]
    | cons y ys =>
      by_cases hxy : x = y
      · subst hxy
        by_cases h : x = NUL <;> simp [strcmp, cstr, h, ih]
      · by_cases hx : x = NUL <;> by_cases hy : y = NUL <;>
          simp [strcmp, cstr, hxy, hx, hy] <;> split <;> simp_all

theorem cstr_of_no_NUL (s : List Char) (h : NUL ∉ s) : cstr s = s := by
  induction s with
  | nil => rfl
  | cons c cs ih =>
    simp only [List.mem_cons, not_or] at h
    simp [cstr, Ne.symm h.1, ih h.2]

theorem Adds.refl (P : Call → Prop) (w : World) : Adds P w w :=
  ⟨[], by simp, by simp⟩

theorem Adds.of_trace_eq {P : Call → Prop} {w w1 : World} (h : w1.trace = w.trace) :
    Adds P w w1 :=
  ⟨[], by simp [h], by simp⟩

theorem Adds.trans {P : Call → Prop} {a b c : World} (h1 : Adds P a b) (h2 : Adds P b c) :
    Adds P a c := by
  obtain ⟨e1, t1, p1⟩ := h1
  obtain ⟨e2, t2, p2⟩ := h2
  refine ⟨e1 ++ e2, by rw [t2, t1, List.append_assoc], ?_⟩
  intro e he
  rcases List.mem_append.1 he with h | h
  · exact p1 e h
  · exact p2 e h

theorem Adds.mono {P Q : Call → Prop} {a b : World} (hPQ : ∀ e, P e → Q e)
    (h : Adds P a b) : Adds Q a b := by
  obtain ⟨e1, t1, p1⟩ := h
  exact ⟨e1, t1, fun e he => hPQ e (p1 e he)⟩

theorem Adds.one {P : Call → Prop} (w w1 : World) (c : Call) (h : w1.trace = w.trace ++ [c])
    (hc : P c) : Adds P w w1 :=
  ⟨[c], h, by simpa using hc⟩

theorem Adds.length_le {P : Call → Prop} {a b : World} (h : Adds P a b) :
    a.trace.length ≤ b.trace.length := by
  obtain ⟨e1, t1, _⟩ := h
  simp [t1]

theorem fopen_status_trace (w : World) :
    (fopen_status w).1.trace = w.trace ++ [Call.fopen_status] := by
  unfold fopen_status
  split <;> simp [World.log]

theorem get_driver_status_trace (w : World) :
    (get_driver_status w).1.trace = w.trace ++ [Call.fopen_status] := by
  have h := fopen_status_trace w
  rcases hf : (fopen_status w).2 with _ | stream <;> simp [get_driver_status, hf, h]

theorem wait_loop_adds (final_status : Nat) (fuel : Nat) (w : World)
    (st : Nat) (timeout : Int) :
    Adds (fun e => e = Call.fopen_status ∨ e = Call.usleep TIMEOUT_STEP) w
      (wait_loop final_status fuel w st timeout).1 := by
  induction fuel generalizing w st timeout with
  | zero => exact Adds.refl _ _
  | succ n ih =>
    unfold wait_loop
    split
    · refine Adds.trans ?_ (ih _ _ _)
      refine Adds.trans (Adds.one w (usleep w TIMEOUT_STEP) (Call.usleep TIMEOUT_STEP) ?_ ?_) ?_
      · simp [usleep, World.log]
      · simp
      · exact Adds.one _ _ Call.fopen_status (get_driver_status_trace _) (by simp)
    · exact Adds.refl _ _

theorem wait_on_driver_status_adds (final_status : Nat) (timeout : Int) (w : World) :
    Adds (fun e => e = Call.fopen_status ∨ e = Call.usleep TIMEOUT_STEP) (get_driver_status w).1
      (wait_on_driver_status final_status timeout w).1 := by
  unfold wait_on_driver_status
  exact wait_loop_adds _ _ _ _ _


theorem get_driver_status_liveness (w : World) :
    (get_driver_status w).1.liveness = w.liveness := by
  have h : (fopen_status w).1.liveness = w.liveness := by
    unfold fopen_status
    split <;> simp [World.log]
  rcases hf : (fopen_status w).2 with _ | stream <;> simp [get_driver_status, hf, h]

theorem wait_loop_liveness (final_status : Nat) (fuel : Nat) (w : World)
    (st : Nat) (timeout : Int) :
    (wait_loop final_status fuel w st timeout).1.liveness = w.liveness := by
  induction fuel generalizing w st timeout with
  | zero => rfl
  | succ n ih =>
    unfold wait_loop
    split
    · simp only []
      rw [ih, get_driver_status_liveness]
      rfl
    · rfl

theorem wait_on_driver_status_liveness (final_status : Nat) (timeout : Int)
    (w : World) : (wait_on_driver_status final_status timeout w).1.liveness = w.liveness := by
  unfold wait_on_driver_status
  simp only []
  rw [wait_loop_liveness, get_driver_status_liveness]

theorem check_and_set_loop_adds (k v : List Char) (count : Nat) (w : World) :
    Adds (fun e => e = Call.property_set (cstr k) (cstr v) ∨ e = Call.property_get (cstr k)) w
      (check_and_set_loop k v count w).1 := by
  induction count generalizing w with
  | zero => exact Adds.refl _ _
  | succ n ih =>
    have h1 : Adds (fun e => e = Call.property_set (cstr k) (cstr v) ∨
        e = Call.property_get (cstr k)) w (property_get (property_set w k v) k).1 := by
      refine ⟨[Call.property_set (cstr k) (cstr v), Call.property_get (cstr k)], ?_, ?_⟩
      · unfold property_get
        split <;> simp [property_set, World.log]
      · intro e he
        simpa using he
    unfold check_and_set_loop
    simp only []
    split
    · exact h1
    · exact Adds.trans h1 (ih _)

theorem check_and_set_loop_liveness (k v : List Char) (count : Nat) (w : World) :
    (check_and_set_loop k v count w).1.liveness = w.liveness := by
  induction count generalizing w with
  | zero => rfl
  | succ n ih =>
    have h1 : (property_get (property_set w k v) k).1.liveness = w.liveness := by
      unfold property_get
      split <;> simp [property_set, World.log]
    unfold check_and_set_loop
    simp only []
    split
    · exact h1
    · rw [ih, h1]


/-! ## wait_on_driver_status -/

/-- The bound on the iterations of `wait_loop` is never reached: more room
changes nothing. -/
theorem wait_loop_fuel (final_status : Nat) (fuel k : Nat) (w : World)
    (st : Nat) (timeout : Int) (h : timeout ≤ fuel) :
    wait_loop final_status (fuel + k) w st timeout =
      wait_loop final_status fuel w st timeout := by
  induction fuel generalizing w st timeout with
  | zero =>
    cases k with
    | zero => rfl
    | succ k =>
      have h0 : ¬ timeout > 0 := by simpa using h
      simp [wait_loop, h0]
  | succ n ih =>
    have e : n + 1 + k = (n + k) + 1 := by omega
    rw [e]
    unfold wait_loop
    split
    · simp only []
      apply ih
      simp only [TIMEOUT_STEP]
      push_cast at h
      omega
    · rfl

theorem polls_get_driver_status (w : World) :
    polls (get_driver_status w).1 = polls w + 1 := by
  unfold polls
  rw [get_driver_status_trace]
  simp

theorem wait_loop_polls (final_status : Nat) (fuel : Nat) (w : World)
    (st : Nat) (timeout : Int) :
    polls (wait_loop final_status fuel w st timeout).1 ≤ polls w + ceil_steps timeout := by
  induction fuel generalizing w st timeout with
  | zero => simp [wait_loop]
  | succ n ih =>
    unfold wait_loop
    split
    · rename_i hcond
      simp only []
      refine le_trans (ih _ _ _) ?_
      rw [polls_get_driver_status]
      have hu : polls (usleep w TIMEOUT_STEP) = polls w := by
        simp [polls, usleep, World.log]
      rw [hu]
      have ht := hcond.2.2
      unfold ceil_steps
      simp only [TIMEOUT_STEP] at ht ⊢
      omega
    · simp

/-- Counterexample to C10: with a timeout of one step and a status that never
becomes the target, `get_driver_status` is called twice, not once. -/
theorem wait_on_driver_status_polls_counterexample :
    ceil_steps 100000 = 1 ∧
      polls (wait_on_driver_status DRV_WIFI_ON 100000
        { status_src := [some "unloaded\n".toList, some "unloaded\n".toList] }).1 = 2 := by
  decide

/-- C10, amended: `wait_on_driver_status` calls `get_driver_status` at most
ceil(timeout / 100000) + 1 times: once before the loop and once after each
sleep step. -/
theorem wait_on_driver_status_polls (final_status : Nat) (timeout : Int)
    (w : World) :
    polls (wait_on_driver_status final_status timeout w).1 ≤
      polls w + (ceil_steps timeout + 1) := by
  unfold wait_on_driver_status
  refine le_trans (wait_loop_polls _ _ _ _ _) ?_
  rw [polls_get_driver_status]
  omega

/-! ## wifi_load_driver and wifi_unload_driver -/

theorem memcpy_iface_trace (w : World) : (memcpy_iface w).trace = w.trace := rfl

theorem memcpy_iface_liveness (w : World) : (memcpy_iface w).liveness = w.liveness := rfl

theorem property_set_trace (w : World) (k v : List Char) :
    (property_set w k v).trace = w.trace ++ [Call.property_set (cstr k) (cstr v)] := rfl

theorem request_start_trace (w : World) :
    (property_set w "ctl.start".toList "nanowifi_start".toList).trace =
      w.trace ++ [Call.property_set "ctl.start".toList "nanowifi_start".toList] := by
  rw [property_set_trace]
  have h1 : cstr "ctl.start".toList = "ctl.start".toList := by decide
  have h2 : cstr "nanowifi_start".toList = "nanowifi_start".toList := by decide
  rw [h1, h2]

theorem request_stop_trace (w : World) :
    (property_set w "ctl.start".toList "nanowifi_stop".toList).trace =
      w.trace ++ [Call.property_set "ctl.start".toList "nanowifi_stop".toList] := by
  rw [property_set_trace]
  have h1 : cstr "ctl.start".toList = "ctl.start".toList := by decide
  have h2 : cstr "nanowifi_stop".toList = "nanowifi_stop".toList := by decide
  rw [h1, h2]

theorem check_and_set_property_adds (w : World) (k v : List Char) :
    Adds (fun _ => True) w (check_and_set_property w k v).1 :=
  Adds.mono (fun _ _ => trivial) (check_and_set_loop_adds k v 8 w)

theorem fopen_proc_trace (w : World) :
    (fopen_proc w).1.trace = w.trace ++ [Call.fopen_proc] := by
  unfold fopen_proc
  split <;> simp [World.log]

theorem fopen_proc_liveness (w : World) : (fopen_proc w).1.liveness = w.liveness.tail := by
  unfold fopen_proc
  split <;> simp_all [World.log]

theorem fopen_proc_result (w : World) :
    (fopen_proc w).2 = true ↔ w.liveness.head? = some true := by
  unfold fopen_proc
  split <;> simp_all

theorem check_and_set_property_liveness (w : World) (k v : List Char) :
    (check_and_set_property w k v).1.liveness = w.liveness :=
  check_and_set_loop_liveness k v 8 w

/-- The calls `wifi_load_driver` may make before its final liveness check. -/
theorem load_before_check (w : World)
    (hreach : ¬((get_driver_status w).2 = DRV_WIFI_ON ∧ w.liveness.head? = some true)) :
    ∃ wpre : World, wifi_load_driver w = wifi_load_driver_check wpre ∧
      Adds (fun e => e = Call.fopen_status ∨ e = Call.fopen_proc ∨
          e = Call.usleep TIMEOUT_STEP ∨
          e = Call.property_set "ctl.start".toList "nanowifi_start".toList)
        (get_driver_status w).1 wpre ∧
      wpre.liveness =
        (if (get_driver_status w).2 = DRV_WIFI_ON then w.liveness.tail else w.liveness) := by
  have hstart : ∀ (v : World) (st : Nat), ∃ wpre : World,
      wifi_load_driver_start v st = wifi_load_driver_check wpre ∧
      Adds (fun e => e = Call.fopen_status ∨ e = Call.fopen_proc ∨
          e = Call.usleep TIMEOUT_STEP ∨
          e = Call.property_set "ctl.start".toList "nanowifi_start".toList) v wpre ∧
      wpre.liveness = v.liveness := by
    intro v st
    unfold wifi_load_driver_start
    split
    · refine ⟨_, rfl, ?_, ?_⟩
      · refine Adds.trans (Adds.one v
          (property_set v "ctl.start".toList "nanowifi_start".toList)
          (Call.property_set "ctl.start".toList "nanowifi_start".toList)
          (request_start_trace v) ?_) ?_
        · simp
        · refine Adds.trans (Adds.one _ _ Call.fopen_status (get_driver_status_trace _) ?_) ?_
          · simp
          · exact Adds.mono (by intro e he; rcases he with h | h <;> simp [h])
              (wait_on_driver_status_adds _ _ _)
      · rw [wait_on_driver_status_liveness]
        rfl
    · exact ⟨v, rfl, Adds.refl _ _, rfl⟩
  unfold wifi_load_driver
  simp only []
  by_cases hon : (get_driver_status w).2 = DRV_WIFI_ON
  · have hl : ¬ w.liveness.head? = some true := fun h => hreach ⟨hon, h⟩
    have hp : ¬ (fopen_proc (memcpy_iface (get_driver_status w).1)).2
          = true := by
      rw [fopen_proc_result]
      simpa [memcpy_iface_liveness, get_driver_status_liveness] using hl
    simp only [hon, if_true, hp, if_false]
    obtain ⟨wpre, he, ha, hlv⟩ := hstart (fopen_proc (memcpy_iface (get_driver_status w).1)).1
        DRV_UNKNOWN
    refine ⟨wpre, he, Adds.trans (Adds.one _ _ Call.fopen_proc ?_ (by simp)) ha, ?_⟩
    · rw [fopen_proc_trace, memcpy_iface_trace]
    · rw [hlv, fopen_proc_liveness]
      simp [memcpy_iface_liveness, get_driver_status_liveness]
  · simp only [hon, if_false]
    obtain ⟨wpre, he, ha, hlv⟩ := hstart (memcpy_iface (get_driver_status w).1)
        (get_driver_status w).2
    refine ⟨wpre, he, Adds.trans (Adds.of_trace_eq rfl) ha, ?_⟩
    rw [hlv]
    simp [memcpy_iface_liveness, get_driver_status_liveness]

theorem wait_on_driver_status_trace (final_status : Nat) (timeout : Int)
    (w : World) :
    ∃ evs, (wait_on_driver_status final_status timeout w).1.trace =
        w.trace ++ Call.fopen_status :: evs ∧
      ∀ e ∈ evs, e = Call.fopen_status ∨ e = Call.usleep TIMEOUT_STEP := by
  obtain ⟨evs, ht, hp⟩ := wait_on_driver_status_adds final_status timeout w
  exact ⟨evs, by rw [ht, get_driver_status_trace]; simp, hp⟩

theorem wifi_load_driver_check_adds (w : World) :
    Adds (fun _ => True) w (wifi_load_driver_check w).1 := by
  unfold wifi_load_driver_check
  simp only []
  have h0 : Adds (fun _ => True) w (fopen_proc w).1 :=
    Adds.one _ _ Call.fopen_proc (fopen_proc_trace w) trivial
  split
  · exact Adds.trans h0 (check_and_set_property_adds _ _ _)
  · refine Adds.trans h0 (Adds.trans
      (check_and_set_property_adds (fopen_proc w).1 DRIVER_PROP_NAME "unloaded".toList) ?_)
    refine Adds.trans (Adds.one _ _ _ (request_stop_trace _) trivial) ?_
    refine Adds.trans (Adds.one _ _ Call.fopen_status (get_driver_status_trace _) trivial) ?_
    exact Adds.mono (fun _ _ => trivial) (wait_on_driver_status_adds _ _ _)

/-- The end of `wifi_load_driver` starts with the liveness check. -/
theorem wifi_load_driver_check_trace (w : World) :
    ∃ evs, (wifi_load_driver_check w).1.trace = w.trace ++ Call.fopen_proc :: evs := by
  have h : Adds (fun _ => True) (fopen_proc w).1 (wifi_load_driver_check w).1 := by
    unfold wifi_load_driver_check
    simp only []
    split
    · exact check_and_set_property_adds _ _ _
    · refine Adds.trans
        (check_and_set_property_adds (fopen_proc w).1 DRIVER_PROP_NAME "unloaded".toList) ?_
      refine Adds.trans (Adds.one _ _ _ (request_stop_trace _) trivial) ?_
      refine Adds.trans (Adds.one _ _ Call.fopen_status (get_driver_status_trace _) trivial) ?_
      exact Adds.mono (fun _ _ => trivial) (wait_on_driver_status_adds _ _ _)
  obtain ⟨evs, ht, _⟩ := h
  exact ⟨evs, by rw [ht, fopen_proc_trace]; simp⟩

/-- Every `wifi_load_driver` checks the liveness entry. -/
theorem wifi_load_driver_checks (w : World) :
    ∃ evs, (wifi_load_driver w).1.trace = w.trace ++ evs ∧ Call.fopen_proc ∈ evs := by
  by_cases hreach : (get_driver_status w).2 = DRV_WIFI_ON ∧ w.liveness.head? = some true
  · refine ⟨[Call.fopen_status, Call.fopen_proc], ?_, by simp⟩
    have hp : (fopen_proc (memcpy_iface (get_driver_status w).1)).2 = true := by
      rw [fopen_proc_result]
      simpa [memcpy_iface_liveness, get_driver_status_liveness] using hreach.2
    unfold wifi_load_driver
    simp only [hreach.1, if_true, hp]
    rw [fopen_proc_trace]
    simp [memcpy_iface_trace, get_driver_status_trace]
  · obtain ⟨wpre, he, ⟨pre, hpre, _⟩, _⟩ := load_before_check w hreach
    obtain ⟨evs, ht⟩ := wifi_load_driver_check_trace wpre
    refine ⟨Call.fopen_status :: pre ++ Call.fopen_proc :: evs, ?_, by simp⟩
    rw [he, ht, hpre, get_driver_status_trace]
    simp

/-- No `wifi_unload_driver` checks the liveness entry. -/
theorem wifi_unload_driver_no_check (w : World) :
    Adds (fun e => e ≠ Call.fopen_proc) w (wifi_unload_driver w).1 := by
  have h0 : Adds (fun e => e ≠ Call.fopen_proc) w (get_driver_status w).1 :=
    Adds.one _ _ Call.fopen_status (get_driver_status_trace w) (by simp)
  unfold wifi_unload_driver
  simp only []
  split
  · exact h0
  · refine Adds.trans h0 ?_
    refine Adds.trans (Adds.one _ _ _ (request_stop_trace _) (by simp)) ?_
    refine Adds.trans (Adds.one _ _ Call.fopen_status (get_driver_status_trace _) (by simp)) ?_
    exact Adds.mono (by intro e he; rcases he with h | h <;> simp [h])
      (wait_on_driver_status_adds _ _ _)

/-- Every `wifi_load_driver` starts by reading the driver status. -/
theorem wifi_load_driver_trace (w : World) :
    ∃ evs, (wifi_load_driver w).1.trace = w.trace ++ Call.fopen_status :: evs := by
  by_cases hreach : (get_driver_status w).2 = DRV_WIFI_ON ∧ w.liveness.head? = some true
  · refine ⟨[Call.fopen_proc], ?_⟩
    have hp : (fopen_proc (memcpy_iface (get_driver_status w).1)).2
          = true := by
      rw [fopen_proc_result]
      simpa [memcpy_iface_liveness, get_driver_status_liveness] using hreach.2
    unfold wifi_load_driver
    simp only [hreach.1, if_true, hp]
    rw [fopen_proc_trace]
    simp [memcpy_iface_trace, get_driver_status_trace]
  · obtain ⟨wpre, he, ⟨pre, hpre, _⟩, _⟩ := load_before_check w hreach
    obtain ⟨evs, ht, _⟩ := wifi_load_driver_check_adds wpre
    refine ⟨pre ++ evs, ?_⟩
    rw [he, ht, hpre, get_driver_status_trace]
    simp

/-- Every `wifi_unload_driver` starts by reading the driver status. -/
theorem wifi_unload_driver_trace (w : World) :
    ∃ evs, (wifi_unload_driver w).1.trace = w.trace ++ Call.fopen_status :: evs := by
  unfold wifi_unload_driver
  simp only []
  split
  · exact ⟨[], get_driver_status_trace w⟩
  · obtain ⟨evs, ht, _⟩ := wait_on_driver_status_trace DRV_UNLOADED TIMEOUT_DRV_UNLOAD
      (property_set (get_driver_status w).1 "ctl.start".toList "nanowifi_stop".toList)
    refine ⟨Call.property_set "ctl.start".toList "nanowifi_stop".toList ::
      Call.fopen_status :: evs, ?_⟩
    rw [ht, request_stop_trace, get_driver_status_trace]
    simp

/-- Counterexample to C7: with status On and the liveness entry missing,
`wifi_load_driver` requests nanowifi_start, polls the status again, writes
wlan.driver.status and, the entry still missing, returns -1. -/
theorem wifi_load_driver_stale_on_counterexample :
    (get_driver_status stale_on).2 = DRV_WIFI_ON ∧
      stale_on.liveness.head? = some false ∧
      (wifi_load_driver stale_on).1.trace.take 5 =
        [Call.fopen_status, Call.fopen_proc,
         Call.property_set "ctl.start".toList "nanowifi_start".toList,
         Call.fopen_status, Call.fopen_proc] ∧
      Call.property_set DRIVER_PROP_NAME "unloaded".toList ∈ (wifi_load_driver stale_on).1.trace ∧
      (wifi_load_driver stale_on).2 = -1 := by
  decide

/-- C7, amended: with status On, `wifi_load_driver` returns success at once,
after the status read and the liveness check and nothing else, when the
liveness indicator is present; when the indicator is absent it goes on to
request nanowifi_start and to poll the status. -/
theorem wifi_load_driver_on (w : World) (hon : (get_driver_status w).2 = DRV_WIFI_ON) :
    (w.liveness.head? = some true →
      (wifi_load_driver w).2 = 0 ∧
      (wifi_load_driver w).1.trace = w.trace ++ [Call.fopen_status, Call.fopen_proc]) ∧
    (w.liveness.head? ≠ some true →
      ∃ evs, (wifi_load_driver w).1.trace =
        w.trace ++ Call.fopen_status :: Call.fopen_proc ::
          Call.property_set "ctl.start".toList "nanowifi_start".toList ::
          Call.fopen_status :: evs) := by
  have hpr := fopen_proc_result (memcpy_iface (get_driver_status w).1)
  simp only [memcpy_iface_liveness, get_driver_status_liveness] at hpr
  constructor
  · intro hl
    unfold wifi_load_driver
    simp only [hon, if_true, hpr.2 hl]
    rw [fopen_proc_trace]
    simp [memcpy_iface_trace, get_driver_status_trace]
  · intro hl
    have hp : ¬ (fopen_proc (memcpy_iface (get_driver_status w).1)).2
          = true := fun h => hl (hpr.1 h)
    unfold wifi_load_driver
    simp only [hon, if_true, hp, if_false, Bool.false_eq_true]
    unfold wifi_load_driver_start
    simp only [DRV_UNKNOWN, DRV_UNLOADED, or_true, if_true]
    obtain ⟨evs, ht, _⟩ := wifi_load_driver_check_adds
      (wait_on_driver_status DRV_WIFI_ON (TIMEOUT_DRV_LOAD + TIMEOUT_DRV_WAKEUP)
        (property_set (fopen_proc (memcpy_iface (get_driver_status w).1)).1
          "ctl.start".toList "nanowifi_start".toList)).1
    obtain ⟨wevs, hwt, _⟩ := wait_on_driver_status_trace DRV_WIFI_ON
      (TIMEOUT_DRV_LOAD + TIMEOUT_DRV_WAKEUP)
      (property_set (fopen_proc (memcpy_iface (get_driver_status w).1)).1
          "ctl.start".toList "nanowifi_start".toList)
    refine ⟨wevs ++ evs, ?_⟩
    rw [ht, hwt, request_start_trace, fopen_proc_trace]
    simp [memcpy_iface_trace, get_driver_status_trace]

/-- Witness of C7, amended: a live On. -/
theorem wifi_load_driver_on_witness :
    (wifi_load_driver live_on).2 = 0 ∧
      (wifi_load_driver live_on).1.trace = live_on.trace ++ [Call.fopen_status, Call.fopen_proc] :=
  (wifi_load_driver_on live_on (by decide)).1 (by decide)

/-! ## wifi_send_command -/

/-- C5: with a command connection open, the world `wifi_send_command` leaves
is that of `wifi_load_driver` run after the transport exchange exactly when
the command text is "DRIVER START", that of `wifi_unload_driver` run after the
exchange exactly when it is "DRIVER STOP", and the world of the exchange
itself for every other text; neither hook leaves a world unchanged, and the
transport outcome plays no part. -/
theorem wifi_send_command_hook (w : World) (ctrl : Option Nat) (cmd reply : List Char)
    (reply_len : Nat) (hconn : w.ctrl_conn ≠ none) :
    ((wifi_send_command w ctrl cmd reply reply_len).world =
        (wifi_load_driver (wpa_ctrl_request w ctrl cmd reply reply_len).1).1 ↔
      cstr cmd = "DRIVER START".toList) ∧
    ((wifi_send_command w ctrl cmd reply reply_len).world =
        (wifi_unload_driver (wpa_ctrl_request w ctrl cmd reply reply_len).1).1 ↔
      cstr cmd = "DRIVER STOP".toList) ∧
    ((wifi_send_command w ctrl cmd reply reply_len).world =
        (wpa_ctrl_request w ctrl cmd reply reply_len).1 ↔
      (cstr cmd ≠ "DRIVER START".toList ∧ cstr cmd ≠ "DRIVER STOP".toList)) := by
  have hS : cstr "DRIVER START".toList = "DRIVER START".toList := by decide
  have hT : cstr "DRIVER STOP".toList = "DRIVER STOP".toList := by decide
  have hne : "DRIVER START".toList ≠ "DRIVER STOP".toList := by decide
  have hload : ∀ v : World, (wifi_load_driver v).1 ≠ v := by
    intro v h
    obtain ⟨evs, ht⟩ := wifi_load_driver_trace v
    rw [h] at ht
    have := congrArg List.length ht
    simp at this
  have hunload : ∀ v : World, (wifi_unload_driver v).1 ≠ v := by
    intro v h
    obtain ⟨evs, ht⟩ := wifi_unload_driver_trace v
    rw [h] at ht
    have := congrArg List.length ht
    simp at this
  have hlu : ∀ v : World, (wifi_load_driver v).1 ≠ (wifi_unload_driver v).1 := by
    intro v h
    obtain ⟨e1, t1, m1⟩ := wifi_load_driver_checks v
    obtain ⟨e2, t2, m2⟩ := wifi_unload_driver_no_check v
    rw [h, t2] at t1
    have he : e2 = e1 := List.append_cancel_left t1
    exact m2 _ (he ▸ m1) rfl
  have hworld : (wifi_send_command w ctrl cmd reply reply_len).world =
      (if cstr cmd = "DRIVER STOP".toList then
        (wifi_unload_driver (if cstr cmd = "DRIVER START".toList then
          (wifi_load_driver (wpa_ctrl_request w ctrl cmd reply reply_len).1).1
          else (wpa_ctrl_request w ctrl cmd reply reply_len).1)).1
       else (if cstr cmd = "DRIVER START".toList then
          (wifi_load_driver (wpa_ctrl_request w ctrl cmd reply reply_len).1).1
          else (wpa_ctrl_request w ctrl cmd reply reply_len).1)) := by
    unfold wifi_send_command
    simp only [hconn, if_false, strcmp_eq_zero, hS, hT]
    split <;> split <;> split <;> (try split) <;> rfl
  by_cases h1 : cstr cmd = "DRIVER START".toList
  · have h2 : cstr cmd ≠ "DRIVER STOP".toList := by rw [h1]; exact hne
    have hw : (wifi_send_command w ctrl cmd reply reply_len).world =
        (wifi_load_driver (wpa_ctrl_request w ctrl cmd reply reply_len).1).1 := by
      rw [hworld, if_neg h2, if_pos h1]
    rw [hw]
    exact ⟨⟨fun _ => h1, fun _ => rfl⟩, ⟨fun h => absurd h (hlu _), fun h => absurd h h2⟩,
      ⟨fun h => absurd h (hload _), fun h => absurd h1 h.1⟩⟩
  · by_cases h2 : cstr cmd = "DRIVER STOP".toList
    · have hw : (wifi_send_command w ctrl cmd reply reply_len).world =
          (wifi_unload_driver (wpa_ctrl_request w ctrl cmd reply reply_len).1).1 := by
        rw [hworld, if_pos h2, if_neg h1]
      rw [hw]
      exact ⟨⟨fun h => absurd h.symm (hlu _), fun h => absurd h h1⟩,
        ⟨fun _ => h2, fun _ => rfl⟩,
        ⟨fun h => absurd h (hunload _), fun h => absurd h2 h.2⟩⟩
    · have hw : (wifi_send_command w ctrl cmd reply reply_len).world =
          (wpa_ctrl_request w ctrl cmd reply reply_len).1 := by
        rw [hworld, if_neg h2, if_neg h1]
      rw [hw]
      exact ⟨⟨fun h => absurd h.symm (hload _), fun h => absurd h h1⟩,
        ⟨fun h => absurd h.symm (hunload _), fun h => absurd h h2⟩,
        ⟨fun _ => ⟨h1, h2⟩, fun _ => rfl⟩⟩

/-- Witness of C5: "DRIVER START" on an unloaded driver requests
nanowifi_start after the exchange. -/
theorem wifi_send_command_hook_witness :
    (wifi_send_command { load_scenario with ctrl_conn := some 0 } (some 0)
        "DRIVER START".toList [] 64).world =
      (wifi_load_driver (wpa_ctrl_request { load_scenario with ctrl_conn := some 0 } (some 0)
        "DRIVER START".toList [] 64).1).1 :=
  (wifi_send_command_hook { load_scenario with ctrl_conn := some 0 } (some 0)
    "DRIVER START".toList [] 64 (by decide)).1.2 (by decide)


/-! ## wifi_connect_to_supplicant -/

theorem cstr_idem (s : List Char) : cstr (cstr s) = cstr s := by
  induction s with
  | nil => rfl
  | cons c cs ih => by_cases h : c = NUL <;> simp [cstr, h, ih]

theorem property_get_cstr (w : World) (k : List Char) :
    cstr (property_get w k).2 = (property_get w k).2 := by
  unfold property_get
  split
  · rfl
  · exact cstr_idem _

/-- C3: when the value read from the daemon service-state property (empty
when the property is missing) is not "running", `wifi_connect_to_supplicant`
returns -1 having made the one `property_get` call and no other, so no
`wpa_ctrl_open`; both handles and the open connections are as before. -/
theorem wifi_connect_requires_running (w : World)
    (hprop : (property_get w SUPP_PROP_NAME).2 ≠ "running".toList) :
    (wifi_connect_to_supplicant w).2 = -1 ∧
      (wifi_connect_to_supplicant w).1.trace = w.trace ++ [Call.property_get SUPP_PROP_NAME] ∧
      (∀ n res, Call.wpa_ctrl_open n res ∉
        (wifi_connect_to_supplicant w).1.trace.drop w.trace.length) ∧
      (wifi_connect_to_supplicant w).1.ctrl_conn = w.ctrl_conn ∧
      (wifi_connect_to_supplicant w).1.monitor_conn = w.monitor_conn ∧
      (wifi_connect_to_supplicant w).1.open_conns = w.open_conns ∧
      (wifi_connect_to_supplicant w).1.open_results = w.open_results := by
  have hR : cstr "running".toList = "running".toList := by decide
  have hK : cstr SUPP_PROP_NAME = SUPP_PROP_NAME := by decide
  have hcond : (property_get w SUPP_PROP_NAME).2.length = 0 ∨
      strcmp (property_get w SUPP_PROP_NAME).2 "running".toList ≠ 0 := by
    right
    rw [Ne, strcmp_eq_zero, property_get_cstr, hR]
    exact hprop
  have hres : wifi_connect_to_supplicant w = ((property_get w SUPP_PROP_NAME).1, -1) := by
    unfold wifi_connect_to_supplicant
    simp only [hcond, if_true]
  have htr : (property_get w SUPP_PROP_NAME).1.trace =
      w.trace ++ [Call.property_get SUPP_PROP_NAME] := by
    unfold property_get
    split <;> simp [World.log, hK]
  rw [hres]
  refine ⟨rfl, htr, ?_, ?_, ?_, ?_, ?_⟩
  · intro n res
    simp [htr]
  all_goals
    unfold property_get
    split <;> rfl

/-- Witness of C3: the property reads "stopped". -/
theorem wifi_connect_requires_running_witness :
    (wifi_connect_to_supplicant
        { prop_values := ["stopped".toList], open_results := [true, true] }).2 = -1 :=
  (wifi_connect_requires_running
    { prop_values := ["stopped".toList], open_results := [true, true] } (by decide)).1


/-- The bound on the iterations of `ctrl_open_retry` is never reached: more
room changes nothing. -/
theorem ctrl_open_retry_fuel (ifname : List Char) (fuel k : Nat) (w : World) (t : Int)
    (h : t ≤ fuel) :
    ctrl_open_retry ifname (fuel + k) w t = ctrl_open_retry ifname fuel w t := by
  induction fuel generalizing w t with
  | zero =>
    cases k with
    | zero => rfl
    | succ k =>
      have h0 : ¬ t > 0 := by simpa using h
      simp [ctrl_open_retry, h0]
  | succ n ih =>
    have e : n + 1 + k = (n + k) + 1 := by omega
    rw [e]
    unfold ctrl_open_retry
    split
    · simp only []
      apply ih
      simp only [TIMEOUT_STEP]
      push_cast at h
      omega
    · rfl

/-- What one `wpa_ctrl_open` does to the world. -/
theorem wpa_ctrl_open_cases (w : World) (n : List Char) :
    (wpa_ctrl_open w n).1.ctrl_conn = w.ctrl_conn ∧
    (wpa_ctrl_open w n).1.monitor_conn = w.monitor_conn ∧
    (((wpa_ctrl_open w n).2 = none ∧
        (wpa_ctrl_open w n).1.open_conns = w.open_conns ∧
        (wpa_ctrl_open w n).1.trace = w.trace ++ [Call.wpa_ctrl_open (cstr n) none]) ∨
      (∃ h, (wpa_ctrl_open w n).2 = some h ∧
        (wpa_ctrl_open w n).1.open_conns = h :: w.open_conns ∧
        (wpa_ctrl_open w n).1.trace = w.trace ++ [Call.wpa_ctrl_open (cstr n) (some h)])) := by
  unfold wpa_ctrl_open
  split
  · exact ⟨rfl, rfl, Or.inr ⟨_, rfl, rfl, rfl⟩⟩
  · exact ⟨rfl, rfl, Or.inl ⟨rfl, rfl, rfl⟩⟩
  · exact ⟨rfl, rfl, Or.inl ⟨rfl, rfl, rfl⟩⟩

/-- The retry loop leaves the event handle alone, and either no connection
was opened and the command handle is empty, or exactly one was, the one the
command handle names. -/
theorem ctrl_open_retry_spec (ifname : List Char) (fuel : Nat) (w : World) (t : Int)
    (hc : w.ctrl_conn = none) :
    (ctrl_open_retry ifname fuel w t).monitor_conn = w.monitor_conn ∧
    ∃ evs, (ctrl_open_retry ifname fuel w t).trace = w.trace ++ evs ∧
      (∀ h, Call.wpa_ctrl_close h ∉ evs) ∧
      (((ctrl_open_retry ifname fuel w t).ctrl_conn = none ∧
          (ctrl_open_retry ifname fuel w t).open_conns = w.open_conns ∧
          ∀ n h, Call.wpa_ctrl_open n (some h) ∉ evs) ∨
        (∃ h, (ctrl_open_retry ifname fuel w t).ctrl_conn = some h ∧
          (ctrl_open_retry ifname fuel w t).open_conns = h :: w.open_conns ∧
          ∀ n k, Call.wpa_ctrl_open n (some k) ∈ evs → k = h)) := by
  induction fuel generalizing w t with
  | zero => exact ⟨rfl, [], by simp [ctrl_open_retry], by simp, Or.inl ⟨hc, rfl, by simp⟩⟩
  | succ m ih =>
    unfold ctrl_open_retry
    split
    · simp only []
      obtain ⟨_, hmon, hcase⟩ := wpa_ctrl_open_cases (usleep w TIMEOUT_STEP) ifname
      rcases hcase with ⟨hn, hoc, htr⟩ | ⟨h, hs, hoc, htr⟩
      · rw [hn]
        obtain ⟨im, evs, it, icl, ic⟩ := ih
          (set_ctrl_conn (wpa_ctrl_open (usleep w TIMEOUT_STEP) ifname).1 none)
          (t - TIMEOUT_STEP) rfl
        refine ⟨by rw [im]; exact hmon, Call.usleep TIMEOUT_STEP ::
          Call.wpa_ctrl_open (cstr ifname) none :: evs, ?_, ?_, ?_⟩
        · rw [it]
          show (wpa_ctrl_open (usleep w TIMEOUT_STEP) ifname).1.trace ++ evs = _
          rw [htr]
          simp [usleep, World.log]
        · intro h hh
          simp only [List.mem_cons, reduceCtorEq, false_or] at hh
          exact icl h hh
        · rcases ic with ⟨c1, c2, c3⟩ | ⟨h, c1, c2, c3⟩
          · refine Or.inl ⟨c1, by rw [c2]; exact hoc, ?_⟩
            intro n h hh
            simp only [List.mem_cons, reduceCtorEq, false_or, Call.wpa_ctrl_open.injEq,
              and_false] at hh
            exact c3 n h hh
          · refine Or.inr ⟨h, c1, by rw [c2]; exact congrArg _ hoc, ?_⟩
            intro n k hh
            simp only [List.mem_cons, reduceCtorEq, false_or, Call.wpa_ctrl_open.injEq,
              and_false] at hh
            exact c3 n k hh
      · rw [hs]
        have hstop : ∀ f v s, (set_ctrl_conn v (some h)).ctrl_conn = some h →
            ctrl_open_retry ifname f (set_ctrl_conn v (some h)) s = set_ctrl_conn v (some h) := by
          intro f v s _
          cases f with
          | zero => rfl
          | succ f =>
            unfold ctrl_open_retry
            simp [set_ctrl_conn]
        rw [hstop _ _ _ rfl]
        refine ⟨hmon, [Call.usleep TIMEOUT_STEP, Call.wpa_ctrl_open (cstr ifname) (some h)],
          ?_, by simp, Or.inr ⟨h, rfl, hoc, ?_⟩⟩
        · show (wpa_ctrl_open (usleep w TIMEOUT_STEP) ifname).1.trace = _
          rw [htr]
          simp [usleep, World.log]
        · intro n k hh
          simp only [List.mem_cons, reduceCtorEq, false_or, Call.wpa_ctrl_open.injEq,
            List.mem_singleton, List.not_mem_nil, or_false] at hh
          exact (Option.some.inj hh.2)
    · exact ⟨rfl, [], by simp, by simp, Or.inl ⟨hc, rfl, by simp⟩⟩


/-- The first `wpa_ctrl_open` and the retry loop together. -/
theorem command_open_spec (ifname : List Char) (fuel : Nat) (v : World) (t : Int) :
    (ctrl_open_retry ifname fuel
        (set_ctrl_conn (wpa_ctrl_open v ifname).1 (wpa_ctrl_open v ifname).2) t).monitor_conn =
      v.monitor_conn ∧
    ∃ evs, (ctrl_open_retry ifname fuel
        (set_ctrl_conn (wpa_ctrl_open v ifname).1 (wpa_ctrl_open v ifname).2) t).trace =
        v.trace ++ evs ∧
      (∀ h, Call.wpa_ctrl_close h ∉ evs) ∧
      (((ctrl_open_retry ifname fuel
            (set_ctrl_conn (wpa_ctrl_open v ifname).1 (wpa_ctrl_open v ifname).2) t).ctrl_conn =
            none ∧
          (ctrl_open_retry ifname fuel
            (set_ctrl_conn (wpa_ctrl_open v ifname).1 (wpa_ctrl_open v ifname).2) t).open_conns =
            v.open_conns ∧
          ∀ n h, Call.wpa_ctrl_open n (some h) ∉ evs) ∨
        (∃ h, (ctrl_open_retry ifname fuel
            (set_ctrl_conn (wpa_ctrl_open v ifname).1 (wpa_ctrl_open v ifname).2) t).ctrl_conn =
            some h ∧
          (ctrl_open_retry ifname fuel
            (set_ctrl_conn (wpa_ctrl_open v ifname).1 (wpa_ctrl_open v ifname).2) t).open_conns =
            h :: v.open_conns ∧
          ∀ n k, Call.wpa_ctrl_open n (some k) ∈ evs → k = h)) := by
  obtain ⟨_, hmon, hcase⟩ := wpa_ctrl_open_cases v ifname
  rcases hcase with ⟨hn, hoc, htr⟩ | ⟨h, hs, hoc, htr⟩
  · rw [hn]
    obtain ⟨im, evs, it, icl, ic⟩ := ctrl_open_retry_spec ifname fuel
      (set_ctrl_conn (wpa_ctrl_open v ifname).1 none) t rfl
    refine ⟨by rw [im]; exact hmon, Call.wpa_ctrl_open (cstr ifname) none :: evs, ?_, ?_, ?_⟩
    · rw [it]
      show (wpa_ctrl_open v ifname).1.trace ++ evs = _
      rw [htr]
      simp
    · intro h hh
      simp only [List.mem_cons, reduceCtorEq, false_or] at hh
      exact icl h hh
    · rcases ic with ⟨c1, c2, c3⟩ | ⟨h, c1, c2, c3⟩
      · refine Or.inl ⟨c1, by rw [c2]; exact hoc, ?_⟩
        intro n h hh
        simp only [List.mem_cons, reduceCtorEq, false_or, Call.wpa_ctrl_open.injEq,
          and_false] at hh
        exact c3 n h hh
      · refine Or.inr ⟨h, c1, by rw [c2]; exact congrArg _ hoc, ?_⟩
        intro n k hh
        simp only [List.mem_cons, reduceCtorEq, false_or, Call.wpa_ctrl_open.injEq,
          and_false] at hh
        exact c3 n k hh
  · rw [hs]
    have hstop : ctrl_open_retry ifname fuel
        (set_ctrl_conn (wpa_ctrl_open v ifname).1 (some h)) t =
        set_ctrl_conn (wpa_ctrl_open v ifname).1 (some h) := by
      cases fuel with
      | zero => rfl
      | succ f =>
        unfold ctrl_open_retry
        simp [set_ctrl_conn]
    rw [hstop]
    refine ⟨hmon, [Call.wpa_ctrl_open (cstr ifname) (some h)], ?_, by simp,
      Or.inr ⟨h, rfl, hoc, ?_⟩⟩
    · show (wpa_ctrl_open v ifname).1.trace = _
      rw [htr]
    · intro n k hh
      simp only [List.mem_singleton, Call.wpa_ctrl_open.injEq] at hh
      exact (Option.some.inj hh.2)

/-- A failing `connect_monitor` closes the command connection, and the event
connection when it had opened it. -/
theorem connect_monitor_failure (w : World) (ifname : List Char) (h : Nat)
    (hc : w.ctrl_conn = some h) (hfail : (connect_monitor w ifname).2 ≠ 0) :
    (connect_monitor w ifname).1.ctrl_conn = none ∧
    (connect_monitor w ifname).1.monitor_conn = none ∧
    (connect_monitor w ifname).1.open_conns = w.open_conns.erase h ∧
    ∃ evs, (connect_monitor w ifname).1.trace = w.trace ++ evs ∧
      Call.wpa_ctrl_close h ∈ evs ∧
      ∀ n k, Call.wpa_ctrl_open n (some k) ∈ evs → Call.wpa_ctrl_close k ∈ evs := by
  obtain ⟨hcc, _, hcase⟩ := wpa_ctrl_open_cases w ifname
  rw [hc] at hcc
  rcases hcase with ⟨hn, hoc, htr⟩ | ⟨k, hs, hoc, htr⟩
  · have hres : connect_monitor w ifname =
        (set_ctrl_conn (wpa_ctrl_close (set_monitor_conn (wpa_ctrl_open w ifname).1 none)
          (some h)) none, -1) := by
      unfold connect_monitor
      simp only [hn, set_monitor_conn, hcc, if_true]
    rw [hres]
    refine ⟨rfl, rfl, ?_, [Call.wpa_ctrl_open (cstr ifname) none, Call.wpa_ctrl_close h],
      ?_, by simp, by simp⟩
    · show (wpa_ctrl_open w ifname).1.open_conns.erase h = _
      rw [hoc]
    · show (wpa_ctrl_open w ifname).1.trace ++ [Call.wpa_ctrl_close h] = _
      rw [htr]
      simp
  · have hatt : (wpa_ctrl_attach (set_monitor_conn (wpa_ctrl_open w ifname).1 (some k))
        (some k)).1.ctrl_conn = some h ∧
        (wpa_ctrl_attach (set_monitor_conn (wpa_ctrl_open w ifname).1 (some k))
          (some k)).1.monitor_conn = some k ∧
        (wpa_ctrl_attach (set_monitor_conn (wpa_ctrl_open w ifname).1 (some k))
          (some k)).1.open_conns = k :: w.open_conns ∧
        (wpa_ctrl_attach (set_monitor_conn (wpa_ctrl_open w ifname).1 (some k))
          (some k)).1.trace = w.trace ++
            [Call.wpa_ctrl_open (cstr ifname) (some k), Call.wpa_ctrl_attach k] := by
      unfold wpa_ctrl_attach
      simp only []
      split <;> simp [set_monitor_conn, World.log, hcc, hoc, htr]
    by_cases ht : (wpa_ctrl_attach (set_monitor_conn (wpa_ctrl_open w ifname).1 (some k))
        (some k)).2 ≠ 0
    · have hres : connect_monitor w ifname =
          (set_monitor_conn (set_ctrl_conn (wpa_ctrl_close (wpa_ctrl_close
            (wpa_ctrl_attach (set_monitor_conn (wpa_ctrl_open w ifname).1 (some k))
              (some k)).1 (some k)) (some h)) none) none, -1) := by
        unfold connect_monitor
        simp only [hs]
        have e1 : (set_monitor_conn (wpa_ctrl_open w ifname).1 (some k)).monitor_conn =
          some k := rfl
        simp only [e1, reduceCtorEq, if_false, ht, if_true, hatt.2.1]
        have e2 : (wpa_ctrl_close (wpa_ctrl_attach
            (set_monitor_conn (wpa_ctrl_open w ifname).1 (some k)) (some k)).1
            (some k)).ctrl_conn = some h := hatt.1
        rw [e2, if_pos ht]
      rw [hres]
      refine ⟨rfl, rfl, ?_, [Call.wpa_ctrl_open (cstr ifname) (some k), Call.wpa_ctrl_attach k,
        Call.wpa_ctrl_close k, Call.wpa_ctrl_close h], ?_, by simp, ?_⟩
      · show (((wpa_ctrl_attach (set_monitor_conn (wpa_ctrl_open w ifname).1 (some k))
          (some k)).1.open_conns.erase k).erase h) = _
        rw [hatt.2.2.1]
        simp
      · show (wpa_ctrl_attach (set_monitor_conn (wpa_ctrl_open w ifname).1 (some k))
          (some k)).1.trace ++ [Call.wpa_ctrl_close k] ++ [Call.wpa_ctrl_close h] = _
        rw [hatt.2.2.2]
        simp
      · intro n j hj
        simp only [List.mem_cons, reduceCtorEq, false_or, Call.wpa_ctrl_open.injEq,
          List.mem_singleton, List.not_mem_nil, or_false] at hj
        rw [← Option.some.inj hj.2]
        simp
    · exfalso
      apply hfail
      unfold connect_monitor
      simp only [hs]
      have e1 : (set_monitor_conn (wpa_ctrl_open w ifname).1 (some k)).monitor_conn =
        some k := rfl
      simp only [e1, reduceCtorEq, if_false, ht]


/-- C4: started with both handles empty, a failing
`wifi_connect_to_supplicant` returns with both handles empty and the open
connections as they were, and every connection it opened has its
`wpa_ctrl_close` in the calls of the run; this covers the failures after the
command connection was opened (event open failed, attach failed). -/
theorem wifi_connect_failure_cleanup (w : World) (hc : w.ctrl_conn = none)
    (hm : w.monitor_conn = none) (hfail : (wifi_connect_to_supplicant w).2 ≠ 0) :
    (wifi_connect_to_supplicant w).1.ctrl_conn = none ∧
    (wifi_connect_to_supplicant w).1.monitor_conn = none ∧
    (wifi_connect_to_supplicant w).1.open_conns = w.open_conns ∧
    ∃ evs, (wifi_connect_to_supplicant w).1.trace = w.trace ++ evs ∧
      ∀ n k, Call.wpa_ctrl_open n (some k) ∈ evs → Call.wpa_ctrl_close k ∈ evs := by
  have hg : (property_get w SUPP_PROP_NAME).1.ctrl_conn = none ∧
      (property_get w SUPP_PROP_NAME).1.monitor_conn = none ∧
      (property_get w SUPP_PROP_NAME).1.open_conns = w.open_conns ∧
      (property_get w SUPP_PROP_NAME).1.trace =
        w.trace ++ [Call.property_get (cstr SUPP_PROP_NAME)] := by
    unfold property_get
    split <;> simp [World.log, hc, hm]
  have ha : ∀ v : World, (access_iface_dir v).1.ctrl_conn = v.ctrl_conn ∧
      (access_iface_dir v).1.monitor_conn = v.monitor_conn ∧
      (access_iface_dir v).1.open_conns = v.open_conns ∧
      (access_iface_dir v).1.trace = v.trace ++ [Call.access_iface_dir] := by
    intro v
    unfold access_iface_dir
    split <;> simp [World.log]
  by_cases hcond : (property_get w SUPP_PROP_NAME).2.length = 0 ∨
      strcmp (property_get w SUPP_PROP_NAME).2 "running".toList ≠ 0
  · have hres : wifi_connect_to_supplicant w = ((property_get w SUPP_PROP_NAME).1, -1) := by
      unfold wifi_connect_to_supplicant
      simp only [hcond, if_true]
    rw [hres]
    exact ⟨hg.1, hg.2.1, hg.2.2.1, _, hg.2.2.2, by simp⟩
  · obtain ⟨a1, a2, a3, a4⟩ := ha (property_get w SUPP_PROP_NAME).1
    generalize hif : (if (access_iface_dir (property_get w SUPP_PROP_NAME).1).2 = true then
        (IFACE_DIR ++ '/' ::
          cstr (access_iface_dir (property_get w SUPP_PROP_NAME).1).1.iface).take 255
      else (cstr (access_iface_dir (property_get w SUPP_PROP_NAME).1).1.iface).take 255) = ifname
    obtain ⟨pm, evs, pt, pcl, pc⟩ := command_open_spec ifname TIMEOUT_SUPPLICANT.toNat
      (access_iface_dir (property_get w SUPP_PROP_NAME).1).1 TIMEOUT_SUPPLICANT
    have hres : wifi_connect_to_supplicant w =
        (if (ctrl_open_retry ifname TIMEOUT_SUPPLICANT.toNat
            (set_ctrl_conn (wpa_ctrl_open (access_iface_dir (property_get w SUPP_PROP_NAME).1).1
              ifname).1 (wpa_ctrl_open (access_iface_dir (property_get w SUPP_PROP_NAME).1).1
              ifname).2) TIMEOUT_SUPPLICANT).ctrl_conn = none then
          (ctrl_open_retry ifname TIMEOUT_SUPPLICANT.toNat
            (set_ctrl_conn (wpa_ctrl_open (access_iface_dir (property_get w SUPP_PROP_NAME).1).1
              ifname).1 (wpa_ctrl_open (access_iface_dir (property_get w SUPP_PROP_NAME).1).1
              ifname).2) TIMEOUT_SUPPLICANT, -1)
        else connect_monitor (ctrl_open_retry ifname TIMEOUT_SUPPLICANT.toNat
            (set_ctrl_conn (wpa_ctrl_open (access_iface_dir (property_get w SUPP_PROP_NAME).1).1
              ifname).1 (wpa_ctrl_open (access_iface_dir (property_get w SUPP_PROP_NAME).1).1
              ifname).2) TIMEOUT_SUPPLICANT) ifname) := by
      unfold wifi_connect_to_supplicant
      simp only [hcond, if_false, hif]
    rw [hres] at hfail ⊢
    rcases pc with ⟨c1, c2, c3⟩ | ⟨h, c1, c2, c3⟩
    · rw [if_pos c1]
      refine ⟨c1, by rw [pm, a2]; exact hg.2.1, by rw [c2, a3]; exact hg.2.2.1,
        Call.property_get (cstr SUPP_PROP_NAME) :: Call.access_iface_dir :: evs, ?_, ?_⟩
      · show (ctrl_open_retry ifname TIMEOUT_SUPPLICANT.toNat _ TIMEOUT_SUPPLICANT).trace = _
        rw [pt, a4, hg.2.2.2]
        simp
      · intro n k hk
        simp only [List.mem_cons, reduceCtorEq, false_or] at hk
        exact absurd hk (c3 n k)
    · have hne : ¬ (ctrl_open_retry ifname TIMEOUT_SUPPLICANT.toNat
          (set_ctrl_conn (wpa_ctrl_open (access_iface_dir (property_get w SUPP_PROP_NAME).1).1
            ifname).1 (wpa_ctrl_open (access_iface_dir (property_get w SUPP_PROP_NAME).1).1
            ifname).2) TIMEOUT_SUPPLICANT).ctrl_conn = none := by
        rw [c1]
        simp
      rw [if_neg hne] at hfail ⊢
      obtain ⟨m1, m2, m3, mevs, mt, mh, mo⟩ := connect_monitor_failure _ ifname h c1 hfail
      refine ⟨m1, m2, ?_, Call.property_get (cstr SUPP_PROP_NAME) :: Call.access_iface_dir ::
        evs ++ mevs, ?_, ?_⟩
      · rw [m3, c2, a3, hg.2.2.1]
        simp
      · rw [mt, pt, a4, hg.2.2.2]
        simp
      · intro n k hk
        simp only [List.cons_append, List.mem_cons, reduceCtorEq, false_or,
          List.mem_append] at hk ⊢
        rcases hk with hk | hk
        · right
          rw [c3 n k hk]
          exact mh
        · right
          exact mo n k hk

/-- Witness of C4: the command connection opens at the second attempt and the
event connection does not open. -/
theorem wifi_connect_failure_cleanup_witness :
    (wifi_connect_to_supplicant
        { prop_values := ["running".toList], open_results := [false, true, false] }).1.ctrl_conn
        = none ∧
      (wifi_connect_to_supplicant
        { prop_values := ["running".toList], open_results := [false, true, false] }).1.open_conns
        = [] :=
  ⟨(wifi_connect_failure_cleanup
      { prop_values := ["running".toList], open_results := [false, true, false] }
      rfl rfl (by decide)).1,
   (wifi_connect_failure_cleanup
      { prop_values := ["running".toList], open_results := [false, true, false] }
      rfl rfl (by decide)).2.2.1⟩


/-! ## wifi_wait_for_event -/

theorem bufSet_append_length (p rest : List Char) (c : Char) :
    bufSet (p ++ rest) p.length c = p ++ c :: rest.drop 1 := by
  unfold bufSet
  cases rest with
  | nil => simp
  | cons x xs => simp

theorem cstr_append_of_no_NUL (p rest : List Char) (h : NUL ∉ p) :
    cstr (p ++ NUL :: rest) = p := by
  rw [cstr_append_NUL, cstr_of_no_NUL p h]

theorem strchr_first (a rest : List Char) (c : Char) (hc : c ∉ a) (hn : NUL ∉ a) :
    strchr (a ++ c :: rest) c = some a.length := by
  induction a with
  | nil => simp [strchr]
  | cons x xs ih =>
    simp only [List.mem_cons, not_or] at hc hn
    have h1 : ¬ x = c := fun h => hc.1 h.symm
    have h2 : ¬ x = NUL := fun h => hn.1 h.symm
    simp [strchr, h1, h2, ih hc.2 hn.2]

theorem strchr_none (p rest : List Char) (c : Char) (hc : c ∉ p) (hn : NUL ∉ p)
    (hcn : c ≠ NUL) : strchr (p ++ NUL :: rest) c = none := by
  induction p with
  | nil =>
    have h1 : ¬ NUL = c := fun h => hcn h.symm
    simp [strchr, h1]
  | cons x xs ih =>
    simp only [List.mem_cons, not_or] at hc hn
    have h1 : ¬ x = c := fun h => hc.1 h.symm
    have h2 : ¬ x = NUL := fun h => hn.1 h.symm
    simp [strchr, h1, h2, ih hc.2 hn.2]

theorem bufRead_middle (x y z : List Char) :
    bufRead (x ++ (y ++ z)) x.length y.length = y := by
  unfold bufRead
  simp


/-- What `wifi_wait_for_event` does with a payload that fits the buffer, when
the receive did not fail and was not an end of stream. -/
theorem wifi_wait_for_event_payload (term : List Char) (w : World) (h : Nat)
    (buf : List Char) (buflen : Nat) (result : Int) (p : List Char) (q : List RecvOutcome)
    (hmon : w.monitor_conn = some h) (hrecv : w.recv_results = ⟨result, p⟩ :: q)
    (hres : 0 ≤ result) (hnorm : ¬(result = 0 ∧ p = [])) (hfit : p.length < buflen) :
    ∃ (w1 : World) (t : List Char),
      wifi_wait_for_event term w buf buflen =
        (if charAt (p ++ NUL :: t) 0 = '<' then
          match strchr (p ++ NUL :: t) '>' with
          | some k =>
            ⟨w1, bufStore (p ++ NUL :: t)
              (bufRead (p ++ NUL :: t) (k + 1) (p.length - (k + 1) + 1)),
              ((p.length - (k + 1) : Nat) : Int)⟩
          | none => ⟨w1, p ++ NUL :: t, (p.length : Int)⟩
        else ⟨w1, p ++ NUL :: t, (p.length : Int)⟩) := by
  have hb : buflen_minus_1 buflen = buflen - 1 := by
    unfold buflen_minus_1
    have : buflen ≠ 0 := by omega
    simp [this]
  have htake : p.take (buflen - 1) = p := List.take_of_length_le (by omega)
  have hr : wpa_ctrl_recv w h buf (buflen - 1) =
      ({ w.log (Call.wpa_ctrl_recv h) with recv_results := q }, result,
        bufStore buf p, p.length) := by
    unfold wpa_ctrl_recv
    rw [hrecv]
    simp only [htake]
    rw [if_neg (by simpa using hres)]
  have hset : bufSet (bufStore buf p) p.length NUL = p ++ NUL :: (buf.drop p.length).drop 1 := by
    unfold bufStore
    exact bufSet_append_length _ _ _
  have hn2 : ¬(result = 0 ∧ p.length = 0) := by
    intro hh
    exact hnorm ⟨hh.1, List.length_eq_zero.1 hh.2⟩
  refine ⟨{ w.log (Call.wpa_ctrl_recv h) with recv_results := q },
    (buf.drop p.length).drop 1, ?_⟩
  unfold wifi_wait_for_event
  rw [hmon]
  simp only [hb, hr, hset]
  rw [if_neg (by simpa using hres), if_neg hn2]

/-- C2: for a received event payload `p` without NUL that fits the buffer
(the receive did not fail and was not an end of stream): when `p` is `<`, a
run without `>`, `>`, and a rest, the buffer holds exactly that rest and the
return value is its length; when `p` does not start with `<` or holds no `>`,
the buffer holds `p` and the return value is the length of `p`. -/
theorem wifi_wait_for_event_strips_level (term : List Char) (w : World) (h : Nat)
    (buf : List Char) (buflen : Nat) (result : Int) (p : List Char) (q : List RecvOutcome)
    (hmon : w.monitor_conn = some h) (hrecv : w.recv_results = ⟨result, p⟩ :: q)
    (hres : 0 ≤ result) (hnorm : ¬(result = 0 ∧ p = [])) (hnul : NUL ∉ p)
    (hfit : p.length < buflen) :
    (∀ a b : List Char, p = '<' :: a ++ '>' :: b → '>' ∉ a →
      cstr (wifi_wait_for_event term w buf buflen).buf = b ∧
      (wifi_wait_for_event term w buf buflen).ret = b.length) ∧
    (¬(p.head? = some '<' ∧ '>' ∈ p) →
      cstr (wifi_wait_for_event term w buf buflen).buf = p ∧
      (wifi_wait_for_event term w buf buflen).ret = p.length) := by
  obtain ⟨w1, t, he⟩ := wifi_wait_for_event_payload term w h buf buflen result p q hmon hrecv
    hres hnorm hfit
  have hgt : ('>' : Char) ≠ NUL := by decide
  constructor
  · intro a b hp ha
    have hna : NUL ∉ '<' :: a := by
      intro hh
      apply hnul
      rw [hp]
      simp only [List.cons_append, List.mem_cons, List.mem_append] at hh ⊢
      rcases hh with hh | hh
      · exact Or.inl hh
      · exact Or.inr (Or.inl hh)
    have hnb : NUL ∉ b := by
      intro hh
      apply hnul
      rw [hp]
      simp [hh]
    have hca : ('>' : Char) ∉ '<' :: a := by
      simp only [List.mem_cons, not_or]
      exact ⟨by decide, ha⟩
    have hk : strchr (p ++ NUL :: t) '>' = some (a.length + 1) := by
      have e : p ++ NUL :: t = ('<' :: a) ++ '>' :: (b ++ NUL :: t) := by
        rw [hp]; simp
      rw [e, strchr_first _ _ _ hca hna]
      simp
    have h0 : charAt (p ++ NUL :: t) 0 = '<' := by
      rw [hp]
      simp [charAt]
    have hlen : p.length - (a.length + 1 + 1) = b.length := by
      rw [hp]
      simp
      omega
    have hread : bufRead (p ++ NUL :: t) (a.length + 1 + 1) (b.length + 1) = b ++ [NUL] := by
      have e : p ++ NUL :: t = ('<' :: a ++ ['>']) ++ ((b ++ [NUL]) ++ t) := by
        rw [hp]; simp
      have e2 : a.length + 1 + 1 = ('<' :: a ++ ['>']).length := by simp
      have e3 : b.length + 1 = (b ++ [NUL]).length := by simp
      rw [e, e2, e3, bufRead_middle]
    rw [he, if_pos h0, hk]
    simp only [hlen, hread]
    refine ⟨?_, trivial⟩
    unfold bufStore
    rw [List.append_assoc]
    exact cstr_append_of_no_NUL b _ hnb
  · intro hno
    have hbuf : cstr (p ++ NUL :: t) = p := cstr_append_of_no_NUL p t hnul
    rw [he]
    split
    · rename_i h0
      have hhead : p.head? = some '<' := by
        cases p with
        | nil =>
          simp [charAt, NUL] at h0
        | cons x xs =>
          simp [charAt] at h0
          simp [h0]
      have hgtp : ('>' : Char) ∉ p := fun hh => hno ⟨hhead, hh⟩
      rw [strchr_none p t '>' hgtp hnul hgt]
      exact ⟨hbuf, rfl⟩
    · exact ⟨hbuf, rfl⟩

/-- Witness of C2: the payload `<3>CTRL-EVENT-FOO` in a buffer of 32 bytes. -/
theorem wifi_wait_for_event_strips_level_witness :
    cstr (wifi_wait_for_event "CTRL-EVENT-TERMINATING ".toList
        { monitor_conn := some 1, recv_results := [⟨0, "<3>CTRL-EVENT-FOO".toList⟩] }
        (List.replicate 32 'x') 32).buf = "CTRL-EVENT-FOO".toList ∧
      (wifi_wait_for_event "CTRL-EVENT-TERMINATING ".toList
        { monitor_conn := some 1, recv_results := [⟨0, "<3>CTRL-EVENT-FOO".toList⟩] }
        (List.replicate 32 'x') 32).ret = 14 :=
  (wifi_wait_for_event_strips_level "CTRL-EVENT-TERMINATING ".toList
    { monitor_conn := some 1, recv_results := [⟨0, "<3>CTRL-EVENT-FOO".toList⟩] } 1
    (List.replicate 32 'x') 32 0 "<3>CTRL-EVENT-FOO".toList [] rfl rfl (by decide) (by decide)
    (by decide) (by decide)).1 "3".toList "CTRL-EVENT-FOO".toList (by decide) (by decide)


/-! ## get_driver_status -/

theorem charAt_cstr (s : List Char) (i : Nat) (h : i < (cstr s).length) :
    charAt s i = (cstr s).getD i NUL := by
  induction s generalizing i with
  | nil => simp [cstr] at h
  | cons c cs ih =>
    by_cases hc : c = NUL
    · simp [cstr, hc] at h
    · simp only [cstr, hc, if_false, List.length_cons] at h ⊢
      cases i with
      | zero => simp [charAt]
      | succ j =>
        have := ih j (by omega)
        simpa [charAt] using this

theorem cstr_bufSet (s : List Char) (i : Nat) (h : i < (cstr s).length) :
    cstr (bufSet s i NUL) = (cstr s).take i := by
  induction s generalizing i with
  | nil => simp [cstr] at h
  | cons c cs ih =>
    by_cases hc : c = NUL
    · simp [cstr, hc] at h
    · simp only [cstr, hc, if_false, List.length_cons] at h ⊢
      cases i with
      | zero => simp [bufSet, cstr]
      | succ j =>
        have hj : j < (cstr cs).length := by omega
        have hl : j < cs.length := by
          have : (cstr cs).length ≤ cs.length := by
            rw [← strlen_eq]
            clear ih hj h
            induction cs with
            | nil => simp [strlen]
            | cons d ds ihd =>
              by_cases hd : d = NUL <;> simp [strlen, hd]
              omega
          omega
        have e := ih j hj
        unfold bufSet at e ⊢
        simp only [hl, if_true] at e
        simp only [List.length_cons, Nat.add_lt_add_iff_right, hl, if_true, List.set_cons_succ,
          cstr, hc, if_false, List.take_succ_cons, e]

theorem NUL_not_mem_cstr (s : List Char) : NUL ∉ cstr s := by
  induction s with
  | nil => simp [cstr]
  | cons c cs ih =>
    by_cases hc : c = NUL
    · simp [cstr, hc]
    · simp only [cstr, hc, if_false, List.mem_cons, not_or]
      exact ⟨fun h => hc h.symm, ih⟩

theorem cstr_take_cstr (s : List Char) (n : Nat) :
    cstr ((cstr s).take n) = (cstr s).take n :=
  cstr_of_no_NUL _ (fun h => NUL_not_mem_cstr s (List.mem_of_mem_take h))

theorem scan_status_congr (b1 b2 : List Char) (h : cstr b1 = cstr b2) (n : Nat)
    (st : Nat) : scan_status b1 n st = scan_status b2 n st := by
  induction n generalizing st with
  | zero => rfl
  | succ m ih =>
    unfold scan_status
    have e : ∀ l : List Char, (strcmp b1 l = 0) = (strcmp b2 l = 0) := by
      intro l
      rw [strcmp_eq_zero, strcmp_eq_zero, h]
    simp only [e, ih]

theorem label_cstr (st : Nat) :
    cstr (DRV_STATUS_STRINGS.getD st []) = DRV_STATUS_STRINGS.getD st [] := by
  rcases st with _ | _ | _ | _ | _ | _ | n
  · decide
  · decide
  · decide
  · decide
  · decide
  · decide
  · rfl

/-- A scan that ends below `DRV_UNKNOWN` ends at a label equal to the text. -/
theorem scan_status_found (buf : List Char) (n : Nat) (st : Nat)
    (hfuel : DRV_UNKNOWN ≤ st + n) :
    scan_status buf n st < DRV_UNKNOWN →
      cstr buf = DRV_STATUS_STRINGS.getD (scan_status buf n st) [] := by
  induction n generalizing st with
  | zero =>
    intro h
    simp only [scan_status, DRV_UNKNOWN] at h hfuel
    omega
  | succ m ih =>
    unfold scan_status
    split
    · split
      · rename_i h0
        intro _
        rw [strcmp_eq_zero, label_cstr] at h0
        exact h0
      · exact ih _ (by simp only [DRV_UNKNOWN] at hfuel ⊢; omega)
    · intro h
      exact absurd h (by assumption)

theorem scan_status_le (buf : List Char) (n : Nat) (st : Nat)
    (hst : st ≤ DRV_UNKNOWN) : scan_status buf n st ≤ DRV_UNKNOWN := by
  induction n generalizing st with
  | zero => exact hst
  | succ m ih =>
    unfold scan_status
    split
    · rename_i hlt
      split
      · exact hst
      · exact ih _ (by simp only [DRV_UNKNOWN] at hlt ⊢; omega)
    · exact hst

/-- The status `read_driver_status` resolves, from the characters `fgets`
takes off the file. -/
theorem read_driver_status_status (dbuf ebuf file : List Char) (hne : file ≠ []) :
    (read_driver_status dbuf ebuf file).2.2 =
      (if (cstr (fgetsTake 63 file).1).length > 1 then
        scan_status (strip_newline (cstr (fgetsTake 63 file).1)) DRV_UNKNOWN DRV_UNLOADED
       else DRV_UNKNOWN) := by
  obtain ⟨c, cs, rfl⟩ := List.exists_cons_of_ne_nil hne
  have hf : fgets dbuf 64 (c :: cs) =
      (some (bufStore dbuf ((fgetsTake 63 (c :: cs)).1 ++ [NUL])), (fgetsTake 63 (c :: cs)).2) :=
    rfl
  generalize (fgetsTake 63 (c :: cs)) = tk at hf ⊢
  have hb : cstr (bufStore dbuf (tk.1 ++ [NUL])) = cstr tk.1 := by
    unfold bufStore
    rw [List.append_assoc]
    exact cstr_append_NUL _ _
  have hstatus : (read_driver_status dbuf ebuf (c :: cs)).2.2 =
      (if (cstr tk.1).length > 1 then
        scan_status (if charAt (bufStore dbuf (tk.1 ++ [NUL])) ((cstr tk.1).length - 1) = '\n'
          then bufSet (bufStore dbuf (tk.1 ++ [NUL])) ((cstr tk.1).length - 1) NUL
          else bufStore dbuf (tk.1 ++ [NUL])) DRV_UNKNOWN DRV_UNLOADED
       else DRV_UNKNOWN) := by
    unfold read_driver_status
    simp only [hf, Option.getD_some, Option.isSome_some, true_and, strlen_eq, hb]
    split_ifs <;> rfl
  rw [hstatus]
  split
  · rename_i hlen
    apply scan_status_congr
    have hi : (cstr tk.1).length - 1 < (cstr (bufStore dbuf (tk.1 ++ [NUL]))).length := by
      rw [hb]; omega
    rw [charAt_cstr _ _ hi, hb]
    unfold strip_newline
    split
    · rw [cstr_bufSet _ _ hi, hb, cstr_take_cstr]
    · rw [hb, cstr_idem]
  · rfl


theorem fgetsTake_line (n : Nat) (line rest : List Char) (h : '\n' ∉ line) :
    (fgetsTake n (line ++ '\n' :: rest)).1 = (line ++ ['\n']).take n := by
  induction line generalizing n with
  | nil => cases n <;> simp [fgetsTake]
  | cons c cs ih =>
    simp only [List.mem_cons, not_or] at h
    have hc : ¬ c = '\n' := fun e => h.1 e.symm
    cases n with
    | zero => simp [fgetsTake]
    | succ k => simp [fgetsTake, hc, ih k h.2]

theorem fgetsTake_last_line (n : Nat) (line : List Char) (h : '\n' ∉ line) :
    (fgetsTake n line).1 = line.take n := by
  induction line generalizing n with
  | nil => cases n <;> simp [fgetsTake]
  | cons c cs ih =>
    simp only [List.mem_cons, not_or] at h
    have hc : ¬ c = '\n' := fun e => h.1 e.symm
    cases n with
    | zero => simp [fgetsTake]
    | succ k => simp [fgetsTake, hc, ih k h.2]

theorem cstr_take (s : List Char) (n : Nat) : cstr (s.take n) = (cstr s).take n := by
  induction s generalizing n with
  | nil => simp [cstr]
  | cons c cs ih =>
    cases n with
    | zero => simp [cstr]
    | succ k => by_cases hc : c = NUL <;> simp [cstr, hc, ih]

/-- The C string of a line and its newline: the newline is seen unless a NUL
comes first. -/
theorem cstr_append_newline (s : List Char) :
    cstr (s ++ ['\n']) = cstr s ∨ cstr (s ++ ['\n']) = cstr s ++ ['\n'] := by
  induction s with
  | nil =>
    right
    have : ¬ ('\n' : Char) = NUL := by decide
    simp [cstr, this]
  | cons c cs ih =>
    by_cases hc : c = NUL
    · left
      simp [cstr, hc]
    · rcases ih with h | h
      · left
        simp [cstr, hc, h]
      · right
        simp [cstr, hc, h]

theorem mem_of_mem_cstr (s : List Char) (c : Char) (h : c ∈ cstr s) : c ∈ s := by
  induction s with
  | nil => simp [cstr] at h
  | cons x xs ih =>
    by_cases hx : x = NUL
    · simp [cstr, hx] at h
    · simp only [cstr, hx, if_false, List.mem_cons] at h ⊢
      rcases h with h | h
      · exact Or.inl h
      · exact Or.inr (ih h)

theorem strip_newline_of_not_mem (s : List Char) (h : '\n' ∉ s) : strip_newline s = s := by
  unfold strip_newline
  split
  · rename_i hl
    exfalso
    by_cases hs : s.length - 1 < s.length
    · rw [List.getD_eq_getElem _ _ hs] at hl
      exact h (hl ▸ List.getElem_mem hs)
    · rw [List.getD_eq_default _ _ (by omega)] at hl
      exact absurd hl (by decide)
  · rfl

theorem strip_newline_append (s : List Char) : strip_newline (s ++ ['\n']) = s := by
  unfold strip_newline
  simp

/-- The text a label scan gets to see determines the line, for a short
label. -/
theorem strip_newline_take (c e lab : List Char) (hc : '\n' ∉ c)
    (he : e = [] ∨ e = ['\n']) (hs : strip_newline ((c ++ e).take 63) = lab)
    (hl : lab.length < 63) : c = lab := by
  rcases he with rfl | rfl
  · rw [List.append_nil, strip_newline_of_not_mem _ (fun h => hc (List.mem_of_mem_take h))] at hs
    have hlen : (c.take 63).length < 63 := by rw [hs]; exact hl
    rw [List.length_take] at hlen
    rw [← hs, List.take_of_length_le (by omega)]
  · by_cases hlt : c.length < 63
    · rw [List.take_of_length_le (by simp; omega), strip_newline_append] at hs
      exact hs
    · have e1 : (c ++ ['\n']).take 63 = c.take 63 := by
        rw [List.take_append_of_le_length (by omega)]
      rw [e1, strip_newline_of_not_mem _ (fun h => hc (List.mem_of_mem_take h))] at hs
      have hlen : (c.take 63).length < 63 := by rw [hs]; exact hl
      rw [List.length_take] at hlen
      omega


theorem get_driver_status_of_file (w : World) (file : List Char)
    (q : List (Option (List Char))) (hsrc : w.status_src = some file :: q) :
    (get_driver_status w).2 =
        (read_driver_status w.driver_status_buf w.errmsg_buf file).2.2 ∧
      (get_driver_status w).1.errmsg_buf =
        (read_driver_status w.driver_status_buf w.errmsg_buf file).2.1 := by
  have hf : fopen_status w = ({ w.log Call.fopen_status with status_src := q }, some file) := by
    unfold fopen_status
    rw [hsrc]
  unfold get_driver_status
  simp only [hf]
  exact ⟨rfl, rfl⟩

theorem read_driver_status_empty (dbuf ebuf : List Char) :
    (read_driver_status dbuf ebuf []).2.2 = DRV_UNKNOWN := by
  unfold read_driver_status
  simp [fgets, DRV_UNKNOWN, DRV_ERROR]

/-- The status resolved from a file, from its first line. -/
theorem status_of_first_line (dbuf ebuf file line : List Char) (hne : file ≠ [])
    (hline : FirstLine file line) :
    (read_driver_status dbuf ebuf file).2.2 =
        (if (cstr (line.take 63)).length > 1 then
          scan_status (strip_newline (cstr (line.take 63))) DRV_UNKNOWN DRV_UNLOADED
         else DRV_UNKNOWN) ∨
      (read_driver_status dbuf ebuf file).2.2 =
        (if (cstr ((line ++ ['\n']).take 63)).length > 1 then
          scan_status (strip_newline (cstr ((line ++ ['\n']).take 63))) DRV_UNKNOWN DRV_UNLOADED
         else DRV_UNKNOWN) := by
  rw [read_driver_status_status dbuf ebuf file hne]
  obtain ⟨hnl, rfl | ⟨rest, rfl⟩⟩ := hline
  · left
    rw [fgetsTake_last_line 63 _ hnl]
  · right
    rw [fgetsTake_line 63 _ _ hnl]

/-- C6: when the first line of the status file is one of the six labels,
`driver_status_to_str(get_driver_status())` is that label; and when the
first line is none of the labels, `get_driver_status` returns `DRV_UNKNOWN`:
this holds of the line as the C string the code reads, so of every line of
text (no NUL byte) as it stands. -/
theorem get_driver_status_labels (w : World) (file line : List Char)
    (q : List (Option (List Char))) (hsrc : w.status_src = some file :: q)
    (hline : FirstLine file line) :
    (line ∈ DRV_STATUS_STRINGS → driver_status_to_str (get_driver_status w).2 = line) ∧
    (cstr line ∉ DRV_STATUS_STRINGS → (get_driver_status w).2 = DRV_UNKNOWN) ∧
    (NUL ∉ line → line ∉ DRV_STATUS_STRINGS → (get_driver_status w).2 = DRV_UNKNOWN) := by
  rw [(get_driver_status_of_file w file q hsrc).1]
  suffices hmain : (line ∈ DRV_STATUS_STRINGS →
      driver_status_to_str (read_driver_status w.driver_status_buf w.errmsg_buf file).2.2 =
        line) ∧
      (cstr line ∉ DRV_STATUS_STRINGS →
        (read_driver_status w.driver_status_buf w.errmsg_buf file).2.2 = DRV_UNKNOWN) from
    ⟨hmain.1, hmain.2, fun hn hl => hmain.2 (by rw [cstr_of_no_NUL line hn]; exact hl)⟩
  constructor
  · intro hmem
    have hne : file ≠ [] := by
      rintro rfl
      obtain ⟨_, h | ⟨rest, h⟩⟩ := hline
      · subst h
        exact absurd hmem (by decide)
      · simp at h
    simp only [DRV_STATUS_STRINGS, List.mem_cons, List.mem_singleton, List.not_mem_nil,
      or_false] at hmem
    rcases status_of_first_line w.driver_status_buf w.errmsg_buf file line hne hline with h | h
    · rw [h]
      rcases hmem with rfl | rfl | rfl | rfl | rfl | rfl <;> decide
    · rw [h]
      rcases hmem with rfl | rfl | rfl | rfl | rfl | rfl <;> decide
  · intro hnot
    by_cases hne : file = []
    · rw [hne]
      exact read_driver_status_empty _ _
    · have key : ∀ t : List Char,
          (t = line.take 63 ∨ t = (line ++ ['\n']).take 63) →
          (if (cstr t).length > 1 then
            scan_status (strip_newline (cstr t)) DRV_UNKNOWN DRV_UNLOADED
           else DRV_UNKNOWN) = DRV_UNKNOWN := by
        intro t ht
        split
        · by_contra hscan
          have hle := scan_status_le (strip_newline (cstr t)) DRV_UNKNOWN DRV_UNLOADED
            (by decide)
          have hlt : scan_status (strip_newline (cstr t)) DRV_UNKNOWN DRV_UNLOADED <
              DRV_UNKNOWN := lt_of_le_of_ne hle hscan
          have hfound := scan_status_found _ _ _ (by decide) hlt
          have hnn : NUL ∉ strip_newline (cstr t) := by
            unfold strip_newline
            split
            · exact fun h => NUL_not_mem_cstr t (List.mem_of_mem_take h)
            · exact NUL_not_mem_cstr t
          rw [cstr_of_no_NUL _ hnn] at hfound
          obtain ⟨e, he, hte⟩ : ∃ e : List Char, (e = [] ∨ e = ['\n']) ∧
              cstr t = (cstr line ++ e).take 63 := by
            rcases ht with rfl | rfl
            · exact ⟨[], Or.inl rfl, by rw [cstr_take, List.append_nil]⟩
            · rcases cstr_append_newline line with h | h
              · exact ⟨[], Or.inl rfl, by rw [cstr_take, h, List.append_nil]⟩
              · exact ⟨['\n'], Or.inr rfl, by rw [cstr_take, h]⟩
          have hfound2 : strip_newline ((cstr line ++ e).take 63) =
              DRV_STATUS_STRINGS.getD
                (scan_status (strip_newline (cstr t)) DRV_UNKNOWN DRV_UNLOADED) [] := by
            rw [← hte]
            exact hfound
          have hshort : (DRV_STATUS_STRINGS.getD
              (scan_status (strip_newline (cstr t)) DRV_UNKNOWN DRV_UNLOADED) []).length < 63 ∧
              DRV_STATUS_STRINGS.getD
                (scan_status (strip_newline (cstr t)) DRV_UNKNOWN DRV_UNLOADED) [] ∈
                DRV_STATUS_STRINGS := by
            generalize scan_status (strip_newline (cstr t)) DRV_UNKNOWN DRV_UNLOADED = i at hlt
            simp only [DRV_UNKNOWN] at hlt
            interval_cases i <;> decide
          have hcl := strip_newline_take (cstr line) e _
            (fun h => hline.1 (mem_of_mem_cstr _ _ h)) he hfound2 hshort.1
          exact hnot (hcl ▸ hshort.2)
        · rfl
      rcases status_of_first_line w.driver_status_buf w.errmsg_buf file line hne hline with h | h
      · rw [h]
        exact key _ (Or.inl rfl)
      · rw [h]
        exact key _ (Or.inr rfl)

/-- Witness of C6: a status file that reads `WiFi on`, and one that reads
`loading`. -/
theorem get_driver_status_labels_witness :
    driver_status_to_str (get_driver_status
        { status_src := [some "WiFi on\n".toList] }).2 = "WiFi on".toList ∧
      (get_driver_status { status_src := [some "loading\n".toList] }).2 = DRV_UNKNOWN :=
  ⟨(get_driver_status_labels { status_src := [some "WiFi on\n".toList] }
      "WiFi on\n".toList "WiFi on".toList [] rfl
      ⟨by decide, Or.inr ⟨[], by decide⟩⟩).1 (by decide),
   (get_driver_status_labels { status_src := [some "loading\n".toList] }
      "loading\n".toList "loading".toList [] rfl
      ⟨by decide, Or.inr ⟨[], by decide⟩⟩).2.2 (by decide) (by decide)⟩


/-- The error buffer `read_driver_status` leaves: the next line of the file
when the status is `DRV_ERROR`, the buffer as it was otherwise. -/
theorem read_driver_status_errmsg (dbuf ebuf file : List Char) :
    ((read_driver_status dbuf ebuf file).2.2 = DRV_ERROR →
      (read_driver_status dbuf ebuf file).2.1 =
        (fgets (bufSet ebuf 0 NUL) 128 (fgets dbuf 64 file).2).1.getD (bufSet ebuf 0 NUL)) ∧
    ((read_driver_status dbuf ebuf file).2.2 ≠ DRV_ERROR →
      (read_driver_status dbuf ebuf file).2.1 = ebuf) := by
  unfold read_driver_status
  simp only []
  split_ifs <;> simp_all

theorem cstr_bufSet_zero (buf : List Char) : cstr (bufSet buf 0 NUL) = [] := by
  cases buf with
  | nil => simp [bufSet, cstr]
  | cons c cs => simp [bufSet, cstr]

/-- The text of the error buffer after reading a line into it. -/
theorem cstr_fgets_errmsg (e stream : List Char) (he : cstr e = []) :
    cstr ((fgets e 128 stream).1.getD e) = cstr (fgetsTake 127 stream).1 := by
  cases stream with
  | nil => simp [fgets, fgetsTake, he, cstr]
  | cons c cs =>
    have hf : fgets e 128 (c :: cs) =
        (some (bufStore e ((fgetsTake 127 (c :: cs)).1 ++ [NUL])), (fgetsTake 127 (c :: cs)).2) :=
      rfl
    rw [hf]
    simp only [Option.getD_some]
    unfold bufStore
    rw [List.append_assoc]
    exact cstr_append_NUL _ _

/-- Counterexample to C9: for the status file `error\nbad checksum\n` the
last-error text is `bad checksum\n`, with the newline, not `bad checksum`. -/
theorem get_driver_status_error_text_counterexample :
    (get_driver_status { status_src := [some "error\nbad checksum\n".toList] }).2 = DRV_ERROR ∧
      cstr (get_driver_status
        { status_src := [some "error\nbad checksum\n".toList] }).1.errmsg_buf =
        "bad checksum\n".toList ∧
      cstr (get_driver_status
        { status_src := [some "error\nbad checksum\n".toList] }).1.errmsg_buf ≠
        "bad checksum".toList := by
  decide

/-- C9, amended: for a status file whose first line is "error" and whose
second line is a message `m` (no NUL), `get_driver_status` returns `DRV_ERROR`
and the last-error text is `m` followed by the newline that ends it, cut to
the 127 characters the buffer holds; it is `m` alone (cut likewise) when the
file ends after `m` without a newline.  When the status resolved is not
`DRV_ERROR`, the last-error buffer is left as it was. -/
theorem get_driver_status_error_text (w : World) (file m : List Char)
    (q : List (Option (List Char))) (hsrc : w.status_src = some file :: q)
    (hnl : '\n' ∉ m) (hnul : NUL ∉ m) :
    (∀ rest, file = "error\n".toList ++ (m ++ '\n' :: rest) →
      (get_driver_status w).2 = DRV_ERROR ∧
      cstr (get_driver_status w).1.errmsg_buf = (m ++ ['\n']).take 127) ∧
    (file = "error\n".toList ++ m →
      (get_driver_status w).2 = DRV_ERROR ∧
      cstr (get_driver_status w).1.errmsg_buf = m.take 127) ∧
    (∀ v : World, (get_driver_status v).2 ≠ DRV_ERROR →
      (get_driver_status v).1.errmsg_buf = v.errmsg_buf) := by
  have herr : "error\n".toList = ['e', 'r', 'r', 'o', 'r', '\n'] := rfl
  obtain ⟨hs, he⟩ := get_driver_status_of_file w file q hsrc
  have hcommon : ∀ tail : List Char, file = "error\n".toList ++ tail →
      (get_driver_status w).2 = DRV_ERROR ∧
      cstr (get_driver_status w).1.errmsg_buf = cstr (fgetsTake 127 tail).1 := by
    intro tail hfile
    have hne : file ≠ [] := by rw [hfile, herr]; simp
    have hst : (read_driver_status w.driver_status_buf w.errmsg_buf file).2.2 = DRV_ERROR := by
      rw [read_driver_status_status _ _ _ hne]
      have ht : (fgetsTake 63 file).1 = "error\n".toList := by
        rw [hfile, herr]
        simp [fgetsTake]
      rw [ht]
      decide
    have htl : (fgets w.driver_status_buf 64 file).2 = tail := by
      rw [hfile, herr]
      simp [fgets, fgetsTake]
    refine ⟨hs.trans hst, ?_⟩
    rw [he, (read_driver_status_errmsg _ _ _).1 hst, htl,
      cstr_fgets_errmsg _ _ (cstr_bufSet_zero _)]
  refine ⟨?_, ?_, ?_⟩
  · intro rest hfile
    obtain ⟨h1, h2⟩ := hcommon _ hfile
    refine ⟨h1, ?_⟩
    rw [h2, fgetsTake_line 127 m rest hnl]
    exact cstr_of_no_NUL _ (fun h => by
      have := List.mem_of_mem_take h
      simp only [List.mem_append, List.mem_singleton] at this
      rcases this with h | h
      · exact hnul h
      · exact absurd h (by decide))
  · intro hfile
    obtain ⟨h1, h2⟩ := hcommon _ hfile
    refine ⟨h1, ?_⟩
    rw [h2, fgetsTake_last_line 127 m hnl]
    exact cstr_of_no_NUL _ (fun h => hnul (List.mem_of_mem_take h))
  · intro v hv
    unfold get_driver_status at hv ⊢
    have hlog : (fopen_status v).1.errmsg_buf = v.errmsg_buf := by
      unfold fopen_status
      split <;> rfl
    rcases hf : (fopen_status v).2 with _ | stream
    · simp only [hf]
      exact hlog
    · simp only [hf] at hv ⊢
      rw [(read_driver_status_errmsg _ _ _).2 hv]
      exact hlog

/-- Witness of C9, amended: the status file `error\nbad checksum\n`. -/
theorem get_driver_status_error_text_witness :
    (get_driver_status { status_src := [some "error\nbad checksum\n".toList] }).2 = DRV_ERROR ∧
      cstr (get_driver_status
        { status_src := [some "error\nbad checksum\n".toList] }).1.errmsg_buf =
        ("bad checksum".toList ++ ['\n']).take 127 :=
  (get_driver_status_error_text { status_src := [some "error\nbad checksum\n".toList] }
    "error\nbad checksum\n".toList "bad checksum".toList [] rfl (by decide) (by decide)).1
    [] (by decide)


/-! ## wait_on_driver_status, step by step -/

theorem sleeps_poll_after (k : Nat) (w : World) :
    sleeps (poll_after k w).1 = sleeps w + k := by
  induction k with
  | zero => simp [poll_after, sleeps, get_driver_status_trace]
  | succ n ih =>
    simp only [poll_after]
    unfold sleeps at ih ⊢
    rw [get_driver_status_trace]
    simp only [usleep, World.log, List.count_append, ih]
    simp
    omega

/-- The loop of `wait_on_driver_status`, entered after the poll number `k`
with iterations enough for the timeout left, ends with a later poll `n`; no
poll from `k` up to `n` saw the target status or the error status, the sleep
steps taken stay below the timeout left plus one step, and poll `n` saw the
target status or the error status unless the sleep steps used up the
timeout. -/
theorem wait_loop_run (final_status : Nat) (fuel : Nat) (w : World) (k : Nat) (t : Int)
    (hfuel : t ≤ (fuel : Int) * 100000) :
    ∃ n : Nat, k ≤ n ∧
      wait_loop final_status fuel (poll_after k w).1 (poll_after k w).2 t = poll_after n w ∧
      (n = k ∨ ((n - k : Nat) : Int) * 100000 < t + 100000) ∧
      (∀ j, k ≤ j → j < n →
        (poll_after j w).2 ≠ final_status ∧ (poll_after j w).2 ≠ DRV_ERROR) ∧
      ((poll_after n w).2 = final_status ∨ (poll_after n w).2 = DRV_ERROR ∨
        t ≤ ((n - k : Nat) : Int) * 100000) := by
  induction fuel generalizing k t with
  | zero =>
    refine ⟨k, le_refl k, rfl, Or.inl rfl, fun j h1 h2 => absurd h1 (by omega), ?_⟩
    right; right
    simp at hfuel ⊢
    exact hfuel
  | succ m ih =>
    unfold wait_loop
    split
    · rename_i hcond
      have hm : t - TIMEOUT_STEP ≤ (m : Int) * 100000 := by
        simp only [TIMEOUT_STEP]
        push_cast at hfuel
        omega
      obtain ⟨n, hn, hrun, hbound, hprev, hstop⟩ := ih (k + 1) (t - TIMEOUT_STEP) hm
      have e : ((n - k : Nat) : Int) = ((n - (k + 1) : Nat) : Int) + 1 := by
        have : n - k = (n - (k + 1)) + 1 := by omega
        rw [this]
        push_cast
        rfl
      refine ⟨n, by omega, hrun, Or.inr ?_, ?_, ?_⟩
      · have ht := hcond.2.2
        simp only [TIMEOUT_STEP] at hbound ht
        rcases hbound with h | h
        · subst h
          simp
          omega
        · rw [e]
          omega
      · intro j h1 h2
        by_cases hj : j = k
        · subst hj
          exact ⟨hcond.1, hcond.2.1⟩
        · exact hprev j (by omega) h2
      · rcases hstop with h | h | h
        · exact Or.inl h
        · exact Or.inr (Or.inl h)
        · right; right
          simp only [TIMEOUT_STEP] at h
          rw [e]
          omega
    · rename_i hcond
      refine ⟨k, le_refl k, rfl, Or.inl rfl, fun j h1 h2 => absurd h1 (by omega), ?_⟩
      by_cases h1 : (poll_after k w).2 = final_status
      · exact Or.inl h1
      · by_cases h2 : (poll_after k w).2 = DRV_ERROR
        · exact Or.inr (Or.inl h2)
        · right; right
          have h3 : ¬ t > 0 := fun h3 => hcond ⟨h1, h2, h3⟩
          simp
          omega

/-- C11: for a non-negative timeout, `wait_on_driver_status` returns what
its last poll returned; no earlier poll saw the target status or
`DRV_ERROR`, and the last poll saw one of them unless the sleep steps taken
had used up the timeout (so it stops at the first poll that sees one, and
not before while time is left); its sleep steps, 100000 microseconds each,
add up to less than the timeout plus 100000. -/
theorem wait_on_driver_status_run (final_status : Nat) (timeout : Int) (w : World)
    (ht : 0 ≤ timeout) :
    ∃ n : Nat, wait_on_driver_status final_status timeout w = poll_after n w ∧
      sleeps (wait_on_driver_status final_status timeout w).1 = sleeps w + n ∧
      (n : Int) * 100000 < timeout + 100000 ∧
      (∀ j, j < n → (poll_after j w).2 ≠ final_status ∧ (poll_after j w).2 ≠ DRV_ERROR) ∧
      ((poll_after n w).2 = final_status ∨ (poll_after n w).2 = DRV_ERROR ∨
        timeout ≤ (n : Int) * 100000) := by
  have hfuel : timeout ≤ (timeout.toNat : Int) * 100000 := by
    rw [Int.toNat_of_nonneg ht]
    omega
  obtain ⟨n, _, hrun, hbound, hprev, hstop⟩ :=
    wait_loop_run final_status timeout.toNat w 0 timeout hfuel
  have hw : wait_on_driver_status final_status timeout w = poll_after n w := hrun
  refine ⟨n, hw, by rw [hw, sleeps_poll_after], ?_,
    fun j hj => hprev j (Nat.zero_le j) hj, ?_⟩
  · rcases hbound with h | h
    · subst h
      simp
      omega
    · simpa using h
  · simpa using hstop

/-- Witness of C11: one sleep step when the status turns to `WiFi on` at the
second poll. -/
theorem wait_on_driver_status_run_witness :
    ∃ n : Nat, wait_on_driver_status DRV_WIFI_ON 5000000 load_scenario =
        poll_after n load_scenario ∧
      sleeps (wait_on_driver_status DRV_WIFI_ON 5000000 load_scenario).1 =
        sleeps load_scenario + n ∧
      (n : Int) * 100000 < 5000000 + 100000 ∧
      (∀ j, j < n → (poll_after j load_scenario).2 ≠ DRV_WIFI_ON ∧
        (poll_after j load_scenario).2 ≠ DRV_ERROR) ∧
      ((poll_after n load_scenario).2 = DRV_WIFI_ON ∨
        (poll_after n load_scenario).2 = DRV_ERROR ∨ (5000000 : Int) ≤ (n : Int) * 100000) :=
  wait_on_driver_status_run DRV_WIFI_ON 5000000 load_scenario (by decide)

/-! ## is_wifi_driver_loaded -/

/-- C17: `is_wifi_driver_loaded` returns 0 whatever the driver status and
the liveness indicator, status On with the indicator present included. -/
theorem is_wifi_driver_loaded_zero (w : World) : (is_wifi_driver_loaded w).2 = 0 := by
  unfold is_wifi_driver_loaded
  simp only []
  split
  · split
    · rfl
    · simp [DRV_UNKNOWN, DRV_WIFI_ON]
  · rename_i h
    simp [h]


/-! ## What the driver calls leave alone -/

theorem keepsConns_refl (w : World) : KeepsConns w w := ⟨rfl, rfl, rfl, rfl⟩

theorem keepsConns_trans {a b c : World} (h1 : KeepsConns a b) (h2 : KeepsConns b c) :
    KeepsConns a c :=
  ⟨h2.1.trans h1.1, h2.2.1.trans h1.2.1, h2.2.2.1.trans h1.2.2.1, h2.2.2.2.trans h1.2.2.2⟩

theorem keeps_refl (w : World) : Keeps w w := ⟨keepsConns_refl w, rfl⟩

theorem keeps_trans {a b c : World} (h1 : Keeps a b) (h2 : Keeps b c) : Keeps a c :=
  ⟨keepsConns_trans h1.1 h2.1, h2.2.trans h1.2⟩

theorem keeps_log (w : World) (c : Call) : Keeps w (w.log c) := ⟨⟨rfl, rfl, rfl, rfl⟩, rfl⟩

theorem keeps_fopen_status (w : World) : Keeps w (fopen_status w).1 := by
  unfold fopen_status
  split <;> exact ⟨⟨rfl, rfl, rfl, rfl⟩, rfl⟩

theorem keeps_fopen_proc (w : World) : Keeps w (fopen_proc w).1 := by
  unfold fopen_proc
  split <;> exact ⟨⟨rfl, rfl, rfl, rfl⟩, rfl⟩

theorem keeps_property_get (w : World) (k : List Char) : Keeps w (property_get w k).1 := by
  unfold property_get
  split <;> exact ⟨⟨rfl, rfl, rfl, rfl⟩, rfl⟩

theorem keeps_property_set (w : World) (k v : List Char) : Keeps w (property_set w k v) :=
  ⟨⟨rfl, rfl, rfl, rfl⟩, rfl⟩

theorem keeps_usleep (w : World) (us : Int) : Keeps w (usleep w us) :=
  ⟨⟨rfl, rfl, rfl, rfl⟩, rfl⟩

theorem keeps_get_driver_status (w : World) : Keeps w (get_driver_status w).1 := by
  have h := keeps_fopen_status w
  unfold get_driver_status
  rcases hf : (fopen_status w).2 with _ | stream
  · simpa [hf] using h
  · simp only [hf]
    exact ⟨⟨h.1.1, h.1.2.1, h.1.2.2.1, h.1.2.2.2⟩, h.2⟩

theorem keeps_wait_loop (final_status fuel : Nat) (w : World) (st : Nat) (t : Int) :
    Keeps w (wait_loop final_status fuel w st t).1 := by
  induction fuel generalizing w st t with
  | zero => exact keeps_refl w
  | succ n ih =>
    unfold wait_loop
    split
    · exact keeps_trans (keeps_trans (keeps_usleep w _) (keeps_get_driver_status _)) (ih _ _ _)
    · exact keeps_refl w

theorem keeps_wait_on_driver_status (final_status : Nat) (t : Int) (w : World) :
    Keeps w (wait_on_driver_status final_status t w).1 := by
  unfold wait_on_driver_status
  exact keeps_trans (keeps_get_driver_status w) (keeps_wait_loop _ _ _ _ _)

theorem keeps_check_and_set_loop (k v : List Char) (count : Nat) (w : World) :
    Keeps w (check_and_set_loop k v count w).1 := by
  induction count generalizing w with
  | zero => exact keeps_refl w
  | succ n ih =>
    have h1 : Keeps w (property_get (property_set w k v) k).1 :=
      keeps_trans (keeps_property_set w k v) (keeps_property_get _ _)
    unfold check_and_set_loop
    simp only []
    split
    · exact h1
    · exact keeps_trans h1 (ih _)

theorem keeps_wifi_load_driver_check (w : World) : Keeps w (wifi_load_driver_check w).1 := by
  unfold wifi_load_driver_check
  simp only []
  split
  · exact keeps_trans (keeps_fopen_proc w) (keeps_check_and_set_loop _ _ 8 _)
  · exact keeps_trans (keeps_fopen_proc w)
      (keeps_trans (keeps_check_and_set_loop DRIVER_PROP_NAME "unloaded".toList 8 _)
        (keeps_trans (keeps_property_set _ _ _) (keeps_wait_on_driver_status _ _ _)))

theorem keeps_wifi_load_driver_start (w : World) (st : Nat) :
    Keeps w (wifi_load_driver_start w st).1 := by
  unfold wifi_load_driver_start
  split
  · exact keeps_trans (keeps_trans (keeps_property_set w _ _)
      (keeps_wait_on_driver_status _ _ _)) (keeps_wifi_load_driver_check _)
  · exact keeps_wifi_load_driver_check w

/-- What `wifi_load_driver` does to the interface name and the connections. -/
theorem wifi_load_driver_frame (w : World) :
    KeepsConns w (wifi_load_driver w).1 ∧
      (wifi_load_driver w).1.iface = bufStore w.iface (WIFI_DRIVER_IFACE ++ [NUL]) := by
  have h0 := keeps_get_driver_status w
  have h1 : Keeps (memcpy_iface (get_driver_status w).1) (wifi_load_driver w).1 := by
    unfold wifi_load_driver
    simp only []
    split
    · split
      · exact keeps_fopen_proc _
      · exact keeps_trans (keeps_fopen_proc _) (keeps_wifi_load_driver_start _ _)
    · exact keeps_wifi_load_driver_start _ _
  have hm : KeepsConns (get_driver_status w).1 (memcpy_iface (get_driver_status w).1) :=
    ⟨rfl, rfl, rfl, rfl⟩
  refine ⟨keepsConns_trans h0.1 (keepsConns_trans hm h1.1), ?_⟩
  rw [h1.2]
  show bufStore (get_driver_status w).1.iface _ = _
  rw [h0.2]

theorem keeps_wifi_unload_driver (w : World) : Keeps w (wifi_unload_driver w).1 := by
  unfold wifi_unload_driver
  simp only []
  split
  · exact keeps_get_driver_status w
  · exact keeps_trans (keeps_get_driver_status w)
      (keeps_trans (keeps_property_set _ _ _) (keeps_wait_on_driver_status _ _ _))

/-! ## The interface name -/

/-- Counterexample to C16: after a load that fails the interface name is
`wlan0`, and it still is after a successful load followed by a successful
unload. -/
theorem iface_counterexample :
    (wifi_load_driver load_fails).2 = -1 ∧
      cstr (wifi_load_driver load_fails).1.iface = "wlan0".toList ∧
      (wifi_load_driver load_then_unload).2 = 0 ∧
      (wifi_unload_driver (wifi_load_driver load_then_unload).1).2 = 0 ∧
      cstr (wifi_unload_driver (wifi_load_driver load_then_unload).1).1.iface =
        "wlan0".toList := by
  decide

/-- C16, amended: every `wifi_load_driver`, whatever it returns, leaves the
interface name `wlan0`; `wifi_unload_driver` leaves the interface name as it
was; so after a sequence of load and unload calls the name is `wlan0` as soon
as the sequence holds a load, and is the initial one otherwise. -/
theorem iface_after_driver_calls :
    (∀ w : World, cstr (wifi_load_driver w).1.iface = "wlan0".toList) ∧
    (∀ w : World, (wifi_unload_driver w).1.iface = w.iface) ∧
    (∀ (ops : List DriverOp) (w : World), DriverOp.load ∈ ops →
      cstr (run_driver ops w).iface = "wlan0".toList) ∧
    (∀ (ops : List DriverOp) (w : World), DriverOp.load ∉ ops →
      (run_driver ops w).iface = w.iface) := by
  have hload : ∀ w : World, cstr (wifi_load_driver w).1.iface = "wlan0".toList := by
    intro w
    rw [(wifi_load_driver_frame w).2]
    unfold bufStore
    rw [List.append_assoc]
    exact cstr_append_of_no_NUL _ _ (by decide)
  have hunload : ∀ w : World, (wifi_unload_driver w).1.iface = w.iface :=
    fun w => (keeps_wifi_unload_driver w).2
  have hnone : ∀ (ops : List DriverOp) (w : World), DriverOp.load ∉ ops →
      (run_driver ops w).iface = w.iface := by
    intro ops
    induction ops with
    | nil => intro w _; rfl
    | cons op rest ih =>
      intro w hmem
      simp only [List.mem_cons, not_or] at hmem
      cases op with
      | load => exact absurd rfl hmem.1
      | unload =>
        simp only [run_driver]
        rw [ih _ hmem.2, hunload]
  refine ⟨hload, hunload, ?_, hnone⟩
  intro ops
  induction ops with
  | nil => intro w h; simp at h
  | cons op rest ih =>
    intro w hmem
    by_cases hrest : DriverOp.load ∈ rest
    · cases op <;> exact ih _ hrest
    · cases op with
      | load =>
        simp only [run_driver]
        rw [hnone rest _ hrest]
        exact hload w
      | unload =>
        simp only [List.mem_cons, reduceCtorEq, false_or] at hmem
        exact absurd hmem hrest


/-- Witness of C16, amended: a load followed by an unload. -/
theorem iface_after_driver_calls_witness :
    cstr (run_driver [DriverOp.load, DriverOp.unload] load_then_unload).iface =
      "wlan0".toList :=
  iface_after_driver_calls.2.2.1 [DriverOp.load, DriverOp.unload] load_then_unload (by decide)

/-! ## The order of opening and closing -/

/-- When the retry loop ends with a command connection, its last call is the
`wpa_ctrl_open` that returned it, and no earlier one returned a handle. -/
theorem ctrl_open_retry_success (ifname : List Char) (fuel : Nat) (w : World) (t : Int)
    (h : Nat) (hc : w.ctrl_conn = none)
    (hs : (ctrl_open_retry ifname fuel w t).ctrl_conn = some h) :
    ∃ pre, (ctrl_open_retry ifname fuel w t).trace =
        w.trace ++ pre ++ [Call.wpa_ctrl_open (cstr ifname) (some h)] ∧
      (∀ n k, Call.wpa_ctrl_open n (some k) ∉ pre) ∧
      (ctrl_open_retry ifname fuel w t).monitor_conn = w.monitor_conn := by
  induction fuel generalizing w t with
  | zero =>
    simp only [ctrl_open_retry] at hs
    rw [hc] at hs
    cases hs
  | succ m ih =>
    unfold ctrl_open_retry at hs ⊢
    split at hs
    · rename_i hcond
      rw [if_pos hcond]
      simp only [] at hs ⊢
      obtain ⟨_, hmon, hcase⟩ := wpa_ctrl_open_cases (usleep w TIMEOUT_STEP) ifname
      rcases hcase with ⟨hn, _, htr⟩ | ⟨k, hk, _, htr⟩
      · rw [hn] at hs ⊢
        obtain ⟨pre, pt, pn, pm⟩ := ih
          (set_ctrl_conn (wpa_ctrl_open (usleep w TIMEOUT_STEP) ifname).1 none)
          (t - TIMEOUT_STEP) rfl hs
        refine ⟨Call.usleep TIMEOUT_STEP :: Call.wpa_ctrl_open (cstr ifname) none :: pre,
          ?_, ?_, ?_⟩
        · rw [pt]
          show (wpa_ctrl_open (usleep w TIMEOUT_STEP) ifname).1.trace ++ pre ++ _ = _
          rw [htr]
          simp [usleep, World.log]
        · intro n k hk
          simp only [List.mem_cons, reduceCtorEq, false_or, Call.wpa_ctrl_open.injEq,
            and_false] at hk
          exact pn n k hk
        · rw [pm]
          exact hmon
      · rw [hk] at hs ⊢
        have hstop : ctrl_open_retry ifname m
            (set_ctrl_conn (wpa_ctrl_open (usleep w TIMEOUT_STEP) ifname).1 (some k))
            (t - TIMEOUT_STEP) =
            set_ctrl_conn (wpa_ctrl_open (usleep w TIMEOUT_STEP) ifname).1 (some k) := by
          cases m with
          | zero => rfl
          | succ f =>
            unfold ctrl_open_retry
            simp [set_ctrl_conn]
        rw [hstop] at hs ⊢
        have hkh : k = h := Option.some.inj hs
        subst hkh
        refine ⟨[Call.usleep TIMEOUT_STEP], ?_, by simp, hmon⟩
        show (wpa_ctrl_open (usleep w TIMEOUT_STEP) ifname).1.trace = _
        rw [htr]
        simp [usleep, World.log]
    · rw [hc] at hs
      cases hs


/-- The first `wpa_ctrl_open` and the retry loop together, when they end with
a command connection. -/
theorem command_open_success (ifname : List Char) (fuel : Nat) (v : World) (t : Int) (h : Nat)
    (hs : (ctrl_open_retry ifname fuel
      (set_ctrl_conn (wpa_ctrl_open v ifname).1 (wpa_ctrl_open v ifname).2) t).ctrl_conn =
      some h) :
    ∃ pre, (ctrl_open_retry ifname fuel
        (set_ctrl_conn (wpa_ctrl_open v ifname).1 (wpa_ctrl_open v ifname).2) t).trace =
        v.trace ++ pre ++ [Call.wpa_ctrl_open (cstr ifname) (some h)] ∧
      ∀ n k, Call.wpa_ctrl_open n (some k) ∉ pre := by
  obtain ⟨_, _, hcase⟩ := wpa_ctrl_open_cases v ifname
  rcases hcase with ⟨hn, _, htr⟩ | ⟨k, hk, _, htr⟩
  · rw [hn] at hs ⊢
    obtain ⟨pre, pt, pn, _⟩ := ctrl_open_retry_success ifname fuel
      (set_ctrl_conn (wpa_ctrl_open v ifname).1 none) t h rfl hs
    refine ⟨Call.wpa_ctrl_open (cstr ifname) none :: pre, ?_, ?_⟩
    · rw [pt]
      show (wpa_ctrl_open v ifname).1.trace ++ pre ++ _ = _
      rw [htr]
      simp
    · intro n k hk
      simp only [List.mem_cons, Call.wpa_ctrl_open.injEq, reduceCtorEq, and_false,
        false_or] at hk
      exact pn n k hk
  · rw [hk] at hs ⊢
    have hstop : ctrl_open_retry ifname fuel
        (set_ctrl_conn (wpa_ctrl_open v ifname).1 (some k)) t =
        set_ctrl_conn (wpa_ctrl_open v ifname).1 (some k) := by
      cases fuel with
      | zero => rfl
      | succ f =>
        unfold ctrl_open_retry
        simp [set_ctrl_conn]
    rw [hstop] at hs ⊢
    have hkh : k = h := Option.some.inj hs
    subst hkh
    refine ⟨[], ?_, by simp⟩
    show (wpa_ctrl_open v ifname).1.trace = _
    rw [htr]
    simp

/-- A `connect_monitor` that succeeds opens the event connection and attaches
it, and touches nothing else. -/
theorem connect_monitor_success (w : World) (ifname : List Char)
    (hok : (connect_monitor w ifname).2 = 0) :
    ∃ m, (connect_monitor w ifname).1.monitor_conn = some m ∧
      (connect_monitor w ifname).1.ctrl_conn = w.ctrl_conn ∧
      (connect_monitor w ifname).1.open_conns = m :: w.open_conns ∧
      (connect_monitor w ifname).1.trace =
        w.trace ++ [Call.wpa_ctrl_open (cstr ifname) (some m), Call.wpa_ctrl_attach m] := by
  obtain ⟨hcc, _, hcase⟩ := wpa_ctrl_open_cases w ifname
  rcases hcase with ⟨hn, _, _⟩ | ⟨k, hs, hoc, htr⟩
  · exfalso
    unfold connect_monitor at hok
    simp [hn, set_monitor_conn] at hok
  · have hatt : (wpa_ctrl_attach (set_monitor_conn (wpa_ctrl_open w ifname).1 (some k))
        (some k)).1.ctrl_conn = w.ctrl_conn ∧
        (wpa_ctrl_attach (set_monitor_conn (wpa_ctrl_open w ifname).1 (some k))
          (some k)).1.monitor_conn = some k ∧
        (wpa_ctrl_attach (set_monitor_conn (wpa_ctrl_open w ifname).1 (some k))
          (some k)).1.open_conns = k :: w.open_conns ∧
        (wpa_ctrl_attach (set_monitor_conn (wpa_ctrl_open w ifname).1 (some k))
          (some k)).1.trace = w.trace ++
            [Call.wpa_ctrl_open (cstr ifname) (some k), Call.wpa_ctrl_attach k] := by
      unfold wpa_ctrl_attach
      simp only []
      split <;> simp [set_monitor_conn, World.log, hcc, hoc, htr]
    have e1 : (set_monitor_conn (wpa_ctrl_open w ifname).1 (some k)).monitor_conn =
      some k := rfl
    by_cases ht : (wpa_ctrl_attach (set_monitor_conn (wpa_ctrl_open w ifname).1 (some k))
        (some k)).2 ≠ 0
    · exfalso
      unfold connect_monitor at hok
      simp only [hs, e1, reduceCtorEq, if_false, if_pos ht] at hok
    · have hres : connect_monitor w ifname =
          ((wpa_ctrl_attach (set_monitor_conn (wpa_ctrl_open w ifname).1 (some k))
            (some k)).1, 0) := by
        unfold connect_monitor
        simp only [hs, e1, reduceCtorEq, if_false, if_neg ht]
      rw [hres]
      exact ⟨k, hatt.2.1, hatt.1, hatt.2.2.1, hatt.2.2.2⟩

/-- What a successful `wifi_connect_to_supplicant` has done: its last three
calls open the command connection, open the event connection and attach the
latter; no earlier call of the run returned a handle. -/
theorem wifi_connect_success (w : World) (hok : (wifi_connect_to_supplicant w).2 = 0) :
    ∃ (c m : Nat) (ifn : List Char) (pre : List Call),
      (wifi_connect_to_supplicant w).1.ctrl_conn = some c ∧
      (wifi_connect_to_supplicant w).1.monitor_conn = some m ∧
      (wifi_connect_to_supplicant w).1.open_conns = m :: c :: w.open_conns ∧
      (wifi_connect_to_supplicant w).1.trace = w.trace ++ pre ++
        [Call.wpa_ctrl_open ifn (some c), Call.wpa_ctrl_open ifn (some m),
         Call.wpa_ctrl_attach m] ∧
      ∀ n k, Call.wpa_ctrl_open n (some k) ∉ pre := by
  have hg : (property_get w SUPP_PROP_NAME).1.open_conns = w.open_conns ∧
      (property_get w SUPP_PROP_NAME).1.trace =
        w.trace ++ [Call.property_get (cstr SUPP_PROP_NAME)] := by
    unfold property_get
    split <;> simp [World.log]
  have ha : ∀ v : World, (access_iface_dir v).1.open_conns = v.open_conns ∧
      (access_iface_dir v).1.trace = v.trace ++ [Call.access_iface_dir] := by
    intro v
    unfold access_iface_dir
    split <;> simp [World.log]
  by_cases hcond : (property_get w SUPP_PROP_NAME).2.length = 0 ∨
      strcmp (property_get w SUPP_PROP_NAME).2 "running".toList ≠ 0
  · exfalso
    unfold wifi_connect_to_supplicant at hok
    simp only [hcond, if_true] at hok
    simp at hok
  · obtain ⟨a3, a4⟩ := ha (property_get w SUPP_PROP_NAME).1
    generalize hif : (if (access_iface_dir (property_get w SUPP_PROP_NAME).1).2 = true then
        (IFACE_DIR ++ '/' ::
          cstr (access_iface_dir (property_get w SUPP_PROP_NAME).1).1.iface).take 255
      else (cstr (access_iface_dir (property_get w SUPP_PROP_NAME).1).1.iface).take 255) = ifname
    obtain ⟨_, evs, _, _, pc⟩ := command_open_spec ifname TIMEOUT_SUPPLICANT.toNat
      (access_iface_dir (property_get w SUPP_PROP_NAME).1).1 TIMEOUT_SUPPLICANT
    have hres : wifi_connect_to_supplicant w =
        (if (ctrl_open_retry ifname TIMEOUT_SUPPLICANT.toNat
            (set_ctrl_conn (wpa_ctrl_open (access_iface_dir (property_get w SUPP_PROP_NAME).1).1
              ifname).1 (wpa_ctrl_open (access_iface_dir (property_get w SUPP_PROP_NAME).1).1
              ifname).2) TIMEOUT_SUPPLICANT).ctrl_conn = none then
          (ctrl_open_retry ifname TIMEOUT_SUPPLICANT.toNat
            (set_ctrl_conn (wpa_ctrl_open (access_iface_dir (property_get w SUPP_PROP_NAME).1).1
              ifname).1 (wpa_ctrl_open (access_iface_dir (property_get w SUPP_PROP_NAME).1).1
              ifname).2) TIMEOUT_SUPPLICANT, -1)
        else connect_monitor (ctrl_open_retry ifname TIMEOUT_SUPPLICANT.toNat
            (set_ctrl_conn (wpa_ctrl_open (access_iface_dir (property_get w SUPP_PROP_NAME).1).1
              ifname).1 (wpa_ctrl_open (access_iface_dir (property_get w SUPP_PROP_NAME).1).1
              ifname).2) TIMEOUT_SUPPLICANT) ifname) := by
      unfold wifi_connect_to_supplicant
      simp only [hcond, if_false, hif]
    rw [hres] at hok ⊢
    rcases pc with ⟨c1, _, _⟩ | ⟨c, c1, c2, _⟩
    · exfalso
      rw [if_pos c1] at hok
      simp at hok
    · have hne : ¬ (ctrl_open_retry ifname TIMEOUT_SUPPLICANT.toNat
          (set_ctrl_conn (wpa_ctrl_open (access_iface_dir (property_get w SUPP_PROP_NAME).1).1
            ifname).1 (wpa_ctrl_open (access_iface_dir (property_get w SUPP_PROP_NAME).1).1
            ifname).2) TIMEOUT_SUPPLICANT).ctrl_conn = none := by
        rw [c1]
        simp
      rw [if_neg hne] at hok ⊢
      obtain ⟨pre, pt, pn⟩ := command_open_success ifname _ _ _ c c1
      obtain ⟨m, m1, m2, m3, m4⟩ := connect_monitor_success _ ifname hok
      refine ⟨c, m, cstr ifname, Call.property_get (cstr SUPP_PROP_NAME) ::
        Call.access_iface_dir :: pre, m2.trans c1, m1, ?_, ?_, ?_⟩
      · rw [m3, c2, a3, hg.1]
      · rw [m4, pt, a4, hg.2]
        simp
      · intro n k hk
        simp only [List.mem_cons, reduceCtorEq, false_or] at hk
        exact pn n k hk


/-- Counterexample to C13: after a connect that opened the command
connection 0 and then the event connection 1, the teardown closes 0 first
and 1 second. -/
theorem close_order_counterexample :
    (wifi_connect_to_supplicant connect_ok).2 = 0 ∧
      (wifi_connect_to_supplicant connect_ok).1.ctrl_conn = some 0 ∧
      (wifi_connect_to_supplicant connect_ok).1.monitor_conn = some 1 ∧
      (wifi_close_supplicant_connection (wifi_connect_to_supplicant connect_ok).1).trace.drop 2 =
        [Call.wpa_ctrl_open [] (some 0), Call.wpa_ctrl_open [] (some 1),
         Call.wpa_ctrl_attach 1, Call.wpa_ctrl_close 0, Call.wpa_ctrl_close 1] := by
  decide

/-- C13, amended: a successful connect opens the command connection, then
the event connection; `wifi_close_supplicant_connection` called with both
open closes the command connection first and the event connection second,
the order in which they were opened, and empties both handles. -/
theorem open_and_close_order (w : World) :
    ((wifi_connect_to_supplicant w).2 = 0 →
      ∃ (c m : Nat) (ifn : List Char) (pre : List Call),
        (wifi_connect_to_supplicant w).1.ctrl_conn = some c ∧
        (wifi_connect_to_supplicant w).1.monitor_conn = some m ∧
        (wifi_connect_to_supplicant w).1.trace = w.trace ++ pre ++
          [Call.wpa_ctrl_open ifn (some c), Call.wpa_ctrl_open ifn (some m),
           Call.wpa_ctrl_attach m] ∧
        ∀ n k, Call.wpa_ctrl_open n (some k) ∉ pre) ∧
    (∀ c m : Nat, w.ctrl_conn = some c → w.monitor_conn = some m →
      (wifi_close_supplicant_connection w).trace =
        w.trace ++ [Call.wpa_ctrl_close c, Call.wpa_ctrl_close m] ∧
      (wifi_close_supplicant_connection w).ctrl_conn = none ∧
      (wifi_close_supplicant_connection w).monitor_conn = none) := by
  constructor
  · intro hok
    obtain ⟨c, m, ifn, pre, h1, h2, _, h4, h5⟩ := wifi_connect_success w hok
    exact ⟨c, m, ifn, pre, h1, h2, h4, h5⟩
  · intro c m hc hm
    unfold wifi_close_supplicant_connection
    simp only [hc, ne_eq, reduceCtorEq, not_false_eq_true, if_true]
    have e : (set_ctrl_conn (wpa_ctrl_close w (some c)) none).monitor_conn = some m := hm
    simp only [e, reduceCtorEq, not_false_eq_true, if_true]
    refine ⟨?_, rfl, rfl⟩
    simp [set_monitor_conn, set_ctrl_conn, wpa_ctrl_close, World.log]

/-- Witness of C13, amended: closing the session `connect_ok` opened. -/
theorem open_and_close_order_witness :
    (wifi_close_supplicant_connection (wifi_connect_to_supplicant connect_ok).1).trace =
      (wifi_connect_to_supplicant connect_ok).1.trace ++
        [Call.wpa_ctrl_close 0, Call.wpa_ctrl_close 1] :=
  ((open_and_close_order (wifi_connect_to_supplicant connect_ok).1).2 0 1
    (by decide) (by decide)).1

/-- Counterexample to C14: a second connect without a close in between leaves
four connections open, two of which no handle names. -/
theorem session_pair_counterexample :
    (run_session [] [SessionOp.connect, SessionOp.connect] connect_twice).open_conns =
        [3, 2, 1, 0] ∧
      (run_session [] [SessionOp.connect, SessionOp.connect] connect_twice).ctrl_conn = some 2 ∧
      (run_session [] [SessionOp.connect, SessionOp.connect] connect_twice).monitor_conn =
        some 3 := by
  decide


/-! ## Sessions -/

theorem keeps_wpa_ctrl_request (w : World) (ctrl : Option Nat) (cmd reply : List Char)
    (n : Nat) : KeepsConns w (wpa_ctrl_request w ctrl cmd reply n).1 := by
  unfold wpa_ctrl_request
  split <;> exact ⟨rfl, rfl, rfl, rfl⟩

theorem keeps_wpa_ctrl_recv (w : World) (h : Nat) (buf : List Char) (n : Nat) :
    KeepsConns w (wpa_ctrl_recv w h buf n).1 := by
  unfold wpa_ctrl_recv
  split
  · exact ⟨rfl, rfl, rfl, rfl⟩
  · split <;> exact ⟨rfl, rfl, rfl, rfl⟩

theorem keeps_wifi_send_command (w : World) (ctrl : Option Nat) (cmd reply : List Char)
    (n : Nat) : KeepsConns w (wifi_send_command w ctrl cmd reply n).world := by
  have h0 := keeps_wpa_ctrl_request w ctrl cmd reply n
  have h1 := keepsConns_trans h0 (wifi_load_driver_frame _).1
  have h2 := keepsConns_trans h0 (keeps_wifi_unload_driver _).1
  have h3 := keepsConns_trans h1 (keeps_wifi_unload_driver _).1
  unfold wifi_send_command
  simp only []
  split_ifs <;> first | exact keepsConns_refl w | exact h0 | exact h1 | exact h2 | exact h3

theorem keeps_wifi_wait_for_event (term : List Char) (w : World) (buf : List Char)
    (buflen : Nat) : KeepsConns w (wifi_wait_for_event term w buf buflen).world := by
  unfold wifi_wait_for_event
  split
  · exact keepsConns_refl w
  · simp only []
    split
    · exact keeps_wpa_ctrl_recv _ _ _ _
    · split
      · exact keeps_wpa_ctrl_recv _ _ _ _
      · split
        · split <;> exact keeps_wpa_ctrl_recv _ _ _ _
        · exact keeps_wpa_ctrl_recv _ _ _ _

theorem SessionInv.of_keeps {w w1 : World} (h : KeepsConns w w1) (hi : SessionInv w) :
    SessionInv w1 := by
  obtain ⟨h1, h2, h3, h4⟩ := h
  unfold SessionInv FreshConns at hi ⊢
  rw [h1, h2, h3, h4]
  exact hi

theorem FreshConns.of_same {w w1 : World} (h3 : w1.open_conns = w.open_conns)
    (h4 : w1.next_handle = w.next_handle) (hf : FreshConns w) : FreshConns w1 := by
  unfold FreshConns at hf ⊢
  rw [h3, h4]
  exact hf

theorem fresh_wpa_ctrl_open (w : World) (n : List Char) (hf : FreshConns w) :
    FreshConns (wpa_ctrl_open w n).1 := by
  unfold wpa_ctrl_open
  split
  · refine ⟨?_, ?_⟩
    · show (w.next_handle :: w.open_conns).Nodup
      exact List.nodup_cons.2 ⟨fun h => Nat.lt_irrefl _ (hf.2 _ h), hf.1⟩
    · intro h hh
      show h < w.next_handle + 1
      have hh2 : h ∈ w.next_handle :: w.open_conns := hh
      rcases List.mem_cons.1 hh2 with e | e
      · omega
      · exact Nat.lt_succ_of_lt (hf.2 h e)
  · exact hf
  · exact hf

theorem fresh_wpa_ctrl_close (w : World) (c : Option Nat) (hf : FreshConns w) :
    FreshConns (wpa_ctrl_close w c) := by
  unfold wpa_ctrl_close
  split
  · exact hf
  · rename_i h
    exact ⟨hf.1.erase h, fun k hk => hf.2 k (List.mem_of_mem_erase hk)⟩

theorem fresh_wpa_ctrl_attach (w : World) (c : Option Nat) (hf : FreshConns w) :
    FreshConns (wpa_ctrl_attach w c).1 := by
  unfold wpa_ctrl_attach
  split
  · exact hf
  · split <;> exact hf

theorem fresh_ctrl_open_retry (ifname : List Char) (fuel : Nat) (w : World) (t : Int)
    (hf : FreshConns w) : FreshConns (ctrl_open_retry ifname fuel w t) := by
  induction fuel generalizing w t with
  | zero => exact hf
  | succ n ih =>
    unfold ctrl_open_retry
    split
    · exact ih _ _ (FreshConns.of_same rfl rfl (fresh_wpa_ctrl_open _ ifname
        (FreshConns.of_same rfl rfl hf)))
    · exact hf

theorem fresh_connect_monitor (w : World) (ifname : List Char) (hf : FreshConns w) :
    FreshConns (connect_monitor w ifname).1 := by
  have h1 : FreshConns (set_monitor_conn (wpa_ctrl_open w ifname).1 (wpa_ctrl_open w ifname).2) :=
    FreshConns.of_same rfl rfl (fresh_wpa_ctrl_open w ifname hf)
  unfold connect_monitor
  simp only []
  split
  · exact FreshConns.of_same rfl rfl (fresh_wpa_ctrl_close _ _ h1)
  · split
    · exact FreshConns.of_same rfl rfl (fresh_wpa_ctrl_close _ _
        (fresh_wpa_ctrl_close _ _ (fresh_wpa_ctrl_attach _ _ h1)))
    · exact fresh_wpa_ctrl_attach _ _ h1

theorem fresh_wifi_connect (w : World) (hf : FreshConns w) :
    FreshConns (wifi_connect_to_supplicant w).1 := by
  have hg : FreshConns (property_get w SUPP_PROP_NAME).1 :=
    FreshConns.of_same (keeps_property_get w _).1.2.2.1 (keeps_property_get w _).1.2.2.2 hf
  have ha : FreshConns (access_iface_dir (property_get w SUPP_PROP_NAME).1).1 := by
    unfold access_iface_dir
    split <;> exact FreshConns.of_same rfl rfl hg
  have key : ∀ ifname : List Char, FreshConns
      (if (ctrl_open_retry ifname TIMEOUT_SUPPLICANT.toNat
          (set_ctrl_conn (wpa_ctrl_open (access_iface_dir (property_get w SUPP_PROP_NAME).1).1
            ifname).1 (wpa_ctrl_open (access_iface_dir (property_get w SUPP_PROP_NAME).1).1
            ifname).2) TIMEOUT_SUPPLICANT).ctrl_conn = none then
        (ctrl_open_retry ifname TIMEOUT_SUPPLICANT.toNat
          (set_ctrl_conn (wpa_ctrl_open (access_iface_dir (property_get w SUPP_PROP_NAME).1).1
            ifname).1 (wpa_ctrl_open (access_iface_dir (property_get w SUPP_PROP_NAME).1).1
            ifname).2) TIMEOUT_SUPPLICANT, (-1 : Int))
      else connect_monitor (ctrl_open_retry ifname TIMEOUT_SUPPLICANT.toNat
          (set_ctrl_conn (wpa_ctrl_open (access_iface_dir (property_get w SUPP_PROP_NAME).1).1
            ifname).1 (wpa_ctrl_open (access_iface_dir (property_get w SUPP_PROP_NAME).1).1
            ifname).2) TIMEOUT_SUPPLICANT) ifname).1 := by
    intro ifname
    have hr := fresh_ctrl_open_retry ifname TIMEOUT_SUPPLICANT.toNat
      (set_ctrl_conn (wpa_ctrl_open (access_iface_dir (property_get w SUPP_PROP_NAME).1).1
        ifname).1 (wpa_ctrl_open (access_iface_dir (property_get w SUPP_PROP_NAME).1).1
        ifname).2) TIMEOUT_SUPPLICANT
      (FreshConns.of_same rfl rfl (fresh_wpa_ctrl_open _ ifname ha))
    split
    · exact hr
    · exact fresh_connect_monitor _ _ hr
  unfold wifi_connect_to_supplicant
  simp only []
  split
  · exact hg
  · exact key _


/-- A failing connect started with both handles empty leaves them empty and
leaves no connection open that was not open before. -/
theorem wifi_connect_failure_state (w : World) (hc : w.ctrl_conn = none)
    (hm : w.monitor_conn = none) (hfail : (wifi_connect_to_supplicant w).2 ≠ 0) :
    (wifi_connect_to_supplicant w).1.ctrl_conn = none ∧
    (wifi_connect_to_supplicant w).1.monitor_conn = none ∧
    (wifi_connect_to_supplicant w).1.open_conns = w.open_conns := by
  have hg := keeps_property_get w SUPP_PROP_NAME
  have ha : ∀ v : World, KeepsConns v (access_iface_dir v).1 := by
    intro v
    unfold access_iface_dir
    split <;> exact ⟨rfl, rfl, rfl, rfl⟩
  by_cases hcond : (property_get w SUPP_PROP_NAME).2.length = 0 ∨
      strcmp (property_get w SUPP_PROP_NAME).2 "running".toList ≠ 0
  · have hres : wifi_connect_to_supplicant w = ((property_get w SUPP_PROP_NAME).1, -1) := by
      unfold wifi_connect_to_supplicant
      simp only [hcond, if_true]
    rw [hres]
    exact ⟨hg.1.1.trans hc, hg.1.2.1.trans hm, hg.1.2.2.1⟩
  · obtain ⟨_, a2, a3, _⟩ := ha (property_get w SUPP_PROP_NAME).1
    generalize hif : (if (access_iface_dir (property_get w SUPP_PROP_NAME).1).2 = true then
        (IFACE_DIR ++ '/' ::
          cstr (access_iface_dir (property_get w SUPP_PROP_NAME).1).1.iface).take 255
      else (cstr (access_iface_dir (property_get w SUPP_PROP_NAME).1).1.iface).take 255) = ifname
    obtain ⟨pm, evs, _, _, pc⟩ := command_open_spec ifname TIMEOUT_SUPPLICANT.toNat
      (access_iface_dir (property_get w SUPP_PROP_NAME).1).1 TIMEOUT_SUPPLICANT
    have hres : wifi_connect_to_supplicant w =
        (if (ctrl_open_retry ifname TIMEOUT_SUPPLICANT.toNat
            (set_ctrl_conn (wpa_ctrl_open (access_iface_dir (property_get w SUPP_PROP_NAME).1).1
              ifname).1 (wpa_ctrl_open (access_iface_dir (property_get w SUPP_PROP_NAME).1).1
              ifname).2) TIMEOUT_SUPPLICANT).ctrl_conn = none then
          (ctrl_open_retry ifname TIMEOUT_SUPPLICANT.toNat
            (set_ctrl_conn (wpa_ctrl_open (access_iface_dir (property_get w SUPP_PROP_NAME).1).1
              ifname).1 (wpa_ctrl_open (access_iface_dir (property_get w SUPP_PROP_NAME).1).1
              ifname).2) TIMEOUT_SUPPLICANT, -1)
        else connect_monitor (ctrl_open_retry ifname TIMEOUT_SUPPLICANT.toNat
            (set_ctrl_conn (wpa_ctrl_open (access_iface_dir (property_get w SUPP_PROP_NAME).1).1
              ifname).1 (wpa_ctrl_open (access_iface_dir (property_get w SUPP_PROP_NAME).1).1
              ifname).2) TIMEOUT_SUPPLICANT) ifname) := by
      unfold wifi_connect_to_supplicant
      simp only [hcond, if_false, hif]
    rw [hres] at hfail ⊢
    rcases pc with ⟨c1, c2, _⟩ | ⟨h, c1, c2, _⟩
    · rw [if_pos c1]
      exact ⟨c1, by rw [pm, a2]; exact hg.1.2.1.trans hm, by rw [c2, a3]; exact hg.1.2.2.1⟩
    · have hne : ¬ (ctrl_open_retry ifname TIMEOUT_SUPPLICANT.toNat
          (set_ctrl_conn (wpa_ctrl_open (access_iface_dir (property_get w SUPP_PROP_NAME).1).1
            ifname).1 (wpa_ctrl_open (access_iface_dir (property_get w SUPP_PROP_NAME).1).1
            ifname).2) TIMEOUT_SUPPLICANT).ctrl_conn = none := by
        rw [c1]
        simp
      rw [if_neg hne] at hfail ⊢
      obtain ⟨m1, m2, m3, _⟩ := connect_monitor_failure _ ifname h c1 hfail
      refine ⟨m1, m2, ?_⟩
      rw [m3, c2, a3, hg.1.2.2.1]
      simp

/-- A connect called with both handles empty keeps the session invariant. -/
theorem session_inv_connect (w : World) (hc : w.ctrl_conn = none) (hm : w.monitor_conn = none)
    (hi : SessionInv w) : SessionInv (wifi_connect_to_supplicant w).1 := by
  have hempty : w.open_conns = [] := by
    apply List.eq_nil_iff_forall_not_mem.2
    intro h hh
    rcases (hi.2 h).1 hh with e | e
    · rw [hc] at e; cases e
    · rw [hm] at e; cases e
  refine ⟨fresh_wifi_connect w hi.1, ?_⟩
  by_cases hok : (wifi_connect_to_supplicant w).2 = 0
  · obtain ⟨c, m, _, _, h1, h2, h3, _, _⟩ := wifi_connect_success w hok
    intro h
    rw [h1, h2, h3, hempty]
    simp only [List.mem_cons, List.not_mem_nil, or_false, Option.some.injEq]
    constructor
    · rintro (e | e)
      · exact Or.inr e.symm
      · exact Or.inl e.symm
    · rintro (e | e)
      · exact Or.inr e.symm
      · exact Or.inl e.symm
  · obtain ⟨h1, h2, h3⟩ := wifi_connect_failure_state w hc hm hok
    intro h
    rw [h1, h2, h3, hempty]
    simp

/-- What `wifi_close_supplicant_connection` leaves: no handle, and of the
open connections those that neither handle named. -/
theorem wifi_close_state (w : World) :
    (wifi_close_supplicant_connection w).ctrl_conn = none ∧
    (wifi_close_supplicant_connection w).monitor_conn = none ∧
    (wifi_close_supplicant_connection w).next_handle = w.next_handle ∧
    (wifi_close_supplicant_connection w).open_conns =
      (match w.monitor_conn with
        | none => (match w.ctrl_conn with
          | none => w.open_conns
          | some c => w.open_conns.erase c)
        | some m => (match w.ctrl_conn with
          | none => w.open_conns.erase m
          | some c => (w.open_conns.erase c).erase m)) := by
  rcases hc : w.ctrl_conn with _ | c <;> rcases hm : w.monitor_conn with _ | m <;>
    simp [wifi_close_supplicant_connection, hc, hm, set_ctrl_conn, set_monitor_conn,
      wpa_ctrl_close, World.log]

/-- A close keeps the session invariant: it leaves no connection open. -/
theorem session_inv_close (w : World) (hi : SessionInv w) :
    SessionInv (wifi_close_supplicant_connection w) := by
  obtain ⟨h1, h2, h3, h4⟩ := wifi_close_state w
  have hempty : (wifi_close_supplicant_connection w).open_conns = [] := by
    rw [h4]
    apply List.eq_nil_iff_forall_not_mem.2
    intro h hh
    rcases hc : w.ctrl_conn with _ | c <;> rcases hm : w.monitor_conn with _ | m <;>
      simp only [hc, hm] at hh
    · rcases (hi.2 h).1 hh with e | e
      · rw [hc] at e; cases e
      · rw [hm] at e; cases e
    · have hh2 := (hi.1.1.mem_erase_iff).1 hh
      rcases (hi.2 h).1 hh2.2 with e | e
      · rw [hc] at e; cases e
      · rw [hm] at e
        exact hh2.1 (Option.some.inj e).symm
    · have hh2 := (hi.1.1.mem_erase_iff).1 hh
      rcases (hi.2 h).1 hh2.2 with e | e
      · rw [hc] at e
        exact hh2.1 (Option.some.inj e).symm
      · rw [hm] at e; cases e
    · have hh2 := ((hi.1.1.erase c).mem_erase_iff).1 hh
      have hh3 := (hi.1.1.mem_erase_iff).1 hh2.2
      rcases (hi.2 h).1 hh3.2 with e | e
      · rw [hc] at e
        exact hh3.1 (Option.some.inj e).symm
      · rw [hm] at e
        exact hh2.1 (Option.some.inj e).symm
  refine ⟨⟨by rw [hempty]; exact List.nodup_nil, by rw [hempty]; simp⟩, ?_⟩
  intro h
  rw [hempty, h1, h2]
  simp


theorem session_inv_step (term : List Char) (w : World) (op : SessionOp) (hi : SessionInv w)
    (hop : op = SessionOp.connect → w.ctrl_conn = none ∧ w.monitor_conn = none) :
    SessionInv (session_step term w op) := by
  cases op with
  | connect => exact session_inv_connect w (hop rfl).1 (hop rfl).2 hi
  | send command reply reply_len =>
    exact SessionInv.of_keeps (keeps_wifi_send_command w _ _ _ _) hi
  | waitEvent buf buflen =>
    exact SessionInv.of_keeps (keeps_wifi_wait_for_event term w buf buflen) hi
  | close => exact session_inv_close w hi

theorem session_inv_run (term : List Char) (ops : List SessionOp) (w : World)
    (hi : SessionInv w) (hd : ConnectsWhenClosed term ops w) :
    SessionInv (run_session term ops w) := by
  induction ops generalizing w with
  | nil => exact hi
  | cons op rest ih =>
    exact ih _ (session_inv_step term w op hi hd.1) hd.2

theorem connects_when_closed_take (term : List Char) (ops : List SessionOp) (w : World)
    (k : Nat) (hd : ConnectsWhenClosed term ops w) :
    ConnectsWhenClosed term (ops.take k) w := by
  induction ops generalizing w k with
  | nil => simpa using hd
  | cons op rest ih =>
    cases k with
    | zero => exact trivial
    | succ j => exact ⟨hd.1, ih _ j hd.2⟩

theorem session_inv_length (w : World) (hi : SessionInv w) : w.open_conns.length ≤ 2 := by
  have hsub : w.open_conns ⊆ w.ctrl_conn.toList ++ w.monitor_conn.toList := by
    intro h hh
    rcases (hi.2 h).1 hh with e | e
    · simp [e]
    · simp [e]
  have hlen := (List.subperm_of_subset hi.1.1 hsub).length_le
  have h1 : w.ctrl_conn.toList.length ≤ 1 := by cases w.ctrl_conn <;> simp
  have h2 : w.monitor_conn.toList.length ≤ 1 := by cases w.monitor_conn <;> simp
  rw [List.length_append] at hlen
  omega

/-- C14, amended: over every sequence of connect, send, waitEvent and close
calls in which connect is only called with both handles empty, started where
the open connections are those the handles name, at every point at most two
connections are open and each is the one the command handle or the event
handle names. -/
theorem session_pair_invariant (term : List Char) (ops : List SessionOp) (w : World)
    (hi : SessionInv w) (hd : ConnectsWhenClosed term ops w) (k : Nat) :
    (run_session term (ops.take k) w).open_conns.length ≤ 2 ∧
      ∀ h ∈ (run_session term (ops.take k) w).open_conns,
        (run_session term (ops.take k) w).ctrl_conn = some h ∨
        (run_session term (ops.take k) w).monitor_conn = some h := by
  have hinv := session_inv_run term (ops.take k) w hi
    (connects_when_closed_take term ops w k hd)
  exact ⟨session_inv_length _ hinv, fun h hh => (hinv.2 h).1 hh⟩

/-- Witness of C14, amended: connect, a command, an event, close, connect. -/
theorem session_pair_invariant_witness :
    (run_session [] ([SessionOp.connect, SessionOp.send "PING".toList [] 0,
        SessionOp.waitEvent [] 16, SessionOp.close, SessionOp.connect].take 5)
        connect_twice).open_conns.length ≤ 2 :=
  (session_pair_invariant [] [SessionOp.connect, SessionOp.send "PING".toList [] 0,
      SessionOp.waitEvent [] 16, SessionOp.close, SessionOp.connect] connect_twice
    ⟨⟨List.nodup_nil, by simp [connect_twice]⟩, by intro h; simp [connect_twice]⟩
    (by decide) 5).1


/-! ## ensure_entropy_file_exists -/

/-- C15: what `ensure_entropy_file_exists` does when the entropy file is
absent.  After a short write it returns -1 and leaves the file with the 10
bytes written, which the next call takes for a good file (it returns 0);
after a failed `chmod` or `chown` it returns -1 and the file is gone; when
every step succeeds the file holds the 21 bytes of `dummy_key` with mode
0660. -/
theorem ensure_entropy_file_exists_short_write :
    (ensure_entropy_file_exists entropy_short_write).2 = -1 ∧
      (ensure_entropy_file_exists entropy_short_write).1.entropy_file =
        some { content := dummy_key.take 10, mode := 0o660, owner := none } ∧
      (ensure_entropy_file_exists (ensure_entropy_file_exists entropy_short_write).1).2 = 0 ∧
      (ensure_entropy_file_exists
        (ensure_entropy_file_exists entropy_short_write).1).1.entropy_file =
        some { content := dummy_key.take 10, mode := 0o660, owner := none } ∧
      (ensure_entropy_file_exists entropy_chmod_fails).2 = -1 ∧
      (ensure_entropy_file_exists entropy_chmod_fails).1.entropy_file = none ∧
      (ensure_entropy_file_exists entropy_chown_fails).2 = -1 ∧
      (ensure_entropy_file_exists entropy_chown_fails).1.entropy_file = none ∧
      (ensure_entropy_file_exists entropy_all_succeed).2 = 0 ∧
      (ensure_entropy_file_exists entropy_all_succeed).1.entropy_file =
        some { content := dummy_key, mode := 0o660, owner := some (AID_SYSTEM, AID_WIFI) } := by
  decide


theorem sys_access_absent (w : World) (p : FsPath) (h : w.file p = none) :
    (sys_access w p).2.1 ≠ 0 ∧ (sys_access w p).1.file p = none := by
  have e : (next_access_errno (w.log (Call.sys_access p))).1.file p = none := by
    unfold next_access_errno
    split <;> (cases p <;> exact h)
  unfold sys_access
  simp only []
  split
  · exact ⟨by simp, e⟩
  · rw [e]
    simp [e]

theorem sys_open_creat_present (w : World) (p : FsPath) (h : 0 ≤ (sys_open w p true).2) :
    (sys_open w p true).1.file p ≠ none := by
  unfold sys_open at h ⊢
  simp only [] at h ⊢
  split
  · rename_i hneg
    rw [if_pos hneg] at h
    omega
  · split
    · rename_i f hf
      rw [hf]
      simp
    · cases p <;> simp [World.setFile, World.file]

theorem sys_write_present (w : World) (p : FsPath) (off : Nat) (data : List Nat)
    (h : w.file p ≠ none) : (sys_write w p off data).1.file p ≠ none := by
  have e : (next_fs_result (w.log (Call.sys_write p data))).1.file p = w.file p := by
    unfold next_fs_result
    split <;> (cases p <;> rfl)
  unfold sys_write
  simp only []
  split
  · rw [e]; exact h
  · split
    · rename_i hn
      rw [e] at hn
      exact absurd hn h
    · cases p <;> simp [World.setFile, World.file]

/-- After any failed or short write of the seed into a file it has just
created, `ensure_entropy_file_exists` returns -1 and the file is still
there. -/
theorem ensure_entropy_file_exists_write_failure (w : World)
    (habs : w.entropy_file = none)
    (herrno : (sys_access w FsPath.entropy).2.2 ≠ EACCES)
    (hopen : 0 ≤ (sys_open (sys_access w FsPath.entropy).1 FsPath.entropy true).2)
    (hwrite : (sys_write (sys_open (sys_access w FsPath.entropy).1 FsPath.entropy true).1
      FsPath.entropy 0 dummy_key).2 ≠ 21) :
    (ensure_entropy_file_exists w).2 = -1 ∧
      (ensure_entropy_file_exists w).1.entropy_file ≠ none := by
  have ha := sys_access_absent w FsPath.entropy habs
  have hcond : ¬ ((sys_access w FsPath.entropy).2.1 = 0 ∨
      (sys_access w FsPath.entropy).2.2 = EACCES) := by
    rintro (h | h)
    · exact ha.1 h
    · exact herrno h
  have hres : ensure_entropy_file_exists w =
      (sys_close (sys_write (sys_open (sys_access w FsPath.entropy).1 FsPath.entropy true).1
        FsPath.entropy 0 dummy_key).1 FsPath.entropy, -1) := by
    unfold ensure_entropy_file_exists
    simp only [hcond, if_false, not_lt.2 hopen, hwrite, ne_eq, not_false_eq_true, if_true]
  rw [hres]
  exact ⟨rfl, sys_write_present _ FsPath.entropy 0 dummy_key
    (sys_open_creat_present _ FsPath.entropy hopen)⟩


/-! ## wifi_start_supplicant -/

end WifiNano
